import Mathlib

/-!
Shallow embedding of the agent orchestration engine of the assigny
repository (file backend/app/agent.py), together with proofs settling the
specification claims.

Modeling conventions:
- Python strings are Lean String values; character-level helpers work on
  List Char (String.data).  Case operations are modeled on the ASCII range.
- Values parsed from JSON are modeled by the inductive Json; Python dicts
  are association lists in insertion order (json.loads keeps the last
  value for a duplicated key, at the first occurrence position, exactly as
  CPython dict insertion does; jsetKey below reproduces that).
- JSON numbers are modeled as integers.
- The MCP tool backend is an explicit oracle parameter of type
  ToolCall := Json -> Json -> Except String String, returning the joined
  text content of a tool result, or an exception message.  The language
  model completion is an oracle Llm := List Turn -> String -> String.
- Regular-expression searches of the source are modeled by dedicated
  executable matchers reproducing the semantics (leftmost match, greedy
  or lazy quantifiers, word boundaries, the non-newline dot) of each
  concrete pattern appearing in agent.py.
-/

namespace Assigny

/-- Json models a Python value obtained from json.loads (numbers as Int). -/
inductive Json where
  | null : Json
  | bool : Bool → Json
  | num : Int → Json
  | str : String → Json
  | arr : List Json → Json
  | obj : List (String × Json) → Json

/-- Python d.get(key) on an association list: value of the key, None when absent. -/
def jget : List (String × Json) → String → Json
  | [], _ => Json.null
  | (k, v) :: rest, key => if k = key then v else jget rest key

/-- Python (key in d) membership test. -/
def jhasKey : List (String × Json) → String → Bool
  | [], _ => false
  | (k, _) :: rest, key => k = key || jhasKey rest key

/-- Python d[key] = value: replace the value in place when the key exists, else append. -/
def jsetKey : List (String × Json) → String → Json → List (String × Json)
  | [], key, v => [(key, v)]
  | (k, w) :: rest, key, v =>
      if k = key then (k, v) :: rest else (k, w) :: jsetKey rest key v

/-- Python d.pop(key, None): drop every binding of the key (dicts hold it at most once). -/
def jdelKey (l : List (String × Json)) (key : String) : List (String × Json) :=
  l.filter (fun kv => kv.1 ≠ key)

/-- Python truthiness of a parsed JSON value. -/
def jtruthy : Json → Bool
  | Json.null => false
  | Json.bool b => b
  | Json.num n => n != 0
  | Json.str s => s ≠ ""
  | Json.arr l => !l.isEmpty
  | Json.obj l => !l.isEmpty

/-- Python (a or b) on values: a when truthy, else b. -/
def jor (a b : Json) : Json := if jtruthy a then a else b

/-- Python d.get(key, default) on a value known to be a dict (default otherwise). -/
def jgetD (j : Json) (key : String) (d : Json) : Json :=
  match j with
  | Json.obj l => if jhasKey l key then jget l key else d
  | _ => d

/-- Python (value == "literal") comparison for a possibly non-string value. -/
def jeqStr (j : Json) (s : String) : Bool :=
  match j with
  | Json.str t => t = s
  | _ => false

/-- Whether a Json value is a Python dict. -/
def jisObj : Json → Bool
  | Json.obj _ => true
  | _ => false

/-- Whether a Json value is a Python str. -/
def jisStr : Json → Bool
  | Json.str _ => true
  | _ => false

/-! Character classes and case mapping (ASCII range, as exercised by the code). -/

def obraceC : Char := Char.ofNat 123
def cbraceC : Char := Char.ofNat 125
def aposC : Char := Char.ofNat 39
def rsquoC : Char := Char.ofNat 8217

def isAsciiUpper (c : Char) : Bool := 65 ≤ c.toNat && c.toNat ≤ 90
def isAsciiLower (c : Char) : Bool := 97 ≤ c.toNat && c.toNat ≤ 122
def isAsciiAlpha (c : Char) : Bool := isAsciiUpper c || isAsciiLower c
def isAsciiDigit (c : Char) : Bool := 48 ≤ c.toNat && c.toNat ≤ 57

/-- Python str.lower on one character (ASCII). -/
def lowerC (c : Char) : Char :=
  if isAsciiUpper c then Char.ofNat (c.toNat + 32) else c

/-- Python str.upper on one character (ASCII). -/
def upperC (c : Char) : Char :=
  if isAsciiLower c then Char.ofNat (c.toNat - 32) else c

/-- Regex word character class \w (ASCII). -/
def isWordC (c : Char) : Bool := isAsciiAlpha c || isAsciiDigit c || c = '_'

/-- Python str.isspace / regex \s characters (ASCII range). -/
def isPyWs (c : Char) : Bool :=
  c = ' ' || c = '\t' || c = '\n' || c = '\r' || c.toNat = 11 || c.toNat = 12

/-- Python str.lower (ASCII case mapping). -/
def lowerS (s : String) : String := String.mk (s.data.map lowerC)

/-- Whether sub occurs in s starting at index i. -/
def occursAt (sub s : List Char) (i : Nat) : Bool := sub.isPrefixOf (s.drop i)

/-- Python (sub in s) substring test. -/
def containsL (s sub : List Char) : Bool :=
  (List.range (s.length + 1)).any (occursAt sub s)

/-- Python (sub in s) on String values. -/
def containsS (s sub : String) : Bool := containsL s.data sub.data

/-- Index of the first occurrence of a character, as used by str.find. -/
def firstIdxOf : List Char → Char → Option Nat
  | [], _ => none
  | c :: rest, t =>
      if c = t then some 0
      else match firstIdxOf rest t with
           | some i => some (i + 1)
           | none => none

/-- Python str.strip leading side. -/
def stripLeft (s : List Char) : List Char := s.dropWhile isPyWs

/-- Python str.strip trailing side. -/
def stripRight (s : List Char) : List Char := (s.reverse.dropWhile isPyWs).reverse

/-- Python str.strip() with the whitespace default. -/
def pyStrip (s : String) : String := String.mk (stripRight (stripLeft s.data))

/-- Python str.strip(chars) with an explicit character set. -/
def pyStripChars (s : String) (set : List Char) : String :=
  String.mk
    ((((s.data.dropWhile (fun c => set.contains c)).reverse.dropWhile
        (fun c => set.contains c)).reverse))

/-- Python str.startswith. -/
def startsWithS (s pre : String) : Bool := pre.data.isPrefixOf s.data

/-- Python str.endswith. -/
def endsWithS (s suf : String) : Bool := suf.data.isSuffixOf s.data

/-- Python str.split() with no argument: split on whitespace runs, no empties. -/
def pySplitWsAux : List Char → List Char → List String
  | [], acc => if acc.isEmpty then [] else [String.mk acc.reverse]
  | c :: rest, acc =>
      if isPyWs c then
        if acc.isEmpty then pySplitWsAux rest []
        else String.mk acc.reverse :: pySplitWsAux rest []
      else pySplitWsAux rest (c :: acc)

/-- Python str.split() on a String. -/
def pySplitWs (s : String) : List String := pySplitWsAux s.data []

/-- Python str.capitalize: first character upper-cased, the rest lower-cased. -/
def pyCapitalize (s : String) : String :=
  match s.data with
  | [] => ""
  | c :: rest => String.mk (upperC c :: rest.map lowerC)

/-- Python str.title folding step, tracking whether the previous character was a letter. -/
def pyTitleAux : List Char → Bool → List Char
  | [], _ => []
  | c :: rest, prevAlpha =>
      (if isAsciiAlpha c then (if prevAlpha then lowerC c else upperC c) else c)
        :: pyTitleAux rest (isAsciiAlpha c)

/-- Python str.title (ASCII). -/
def pyTitle (s : String) : String := String.mk (pyTitleAux s.data false)

/-- Join a list of strings with a separator, as Python sep.join. -/
def sepJoin (sep : String) : List String → String
  | [] => ""
  | [x] => x
  | x :: rest => x ++ sep ++ sepJoin sep rest

/-! Model of json.loads restricted to the shapes the engine exchanges
(integers stand for JSON numbers). -/

/-- Whitespace accepted by the JSON grammar between tokens. -/
def isJsonWs (c : Char) : Bool := c = ' ' || c = '\t' || c = '\n' || c = '\r'

/-- Skip inter-token JSON whitespace. -/
def skipWs (s : List Char) : List Char := s.dropWhile isJsonWs

/-- Decode a single-character string escape of the JSON grammar. -/
def unescC (c : Char) : Option Char :=
  if c = '"' then some '"'
  else if c = '\\' then some '\\'
  else if c = '/' then some '/'
  else if c = 'n' then some '\n'
  else if c = 't' then some '\t'
  else if c = 'r' then some '\r'
  else if c = 'b' then some (Char.ofNat 8)
  else if c = 'f' then some (Char.ofNat 12)
  else none

/-- Value of a hexadecimal digit. -/
def hexVal (c : Char) : Option Nat :=
  if isAsciiDigit c then some (c.toNat - 48)
  else if 97 ≤ c.toNat && c.toNat ≤ 102 then some (c.toNat - 87)
  else if 65 ≤ c.toNat && c.toNat ≤ 70 then some (c.toNat - 55)
  else none

/-- Parse the body of a JSON string literal after the opening quote,
returning the decoded content and the remaining input. -/
def parseStrBody : List Char → Option (List Char × List Char)
  | [] => none
  | c :: rest =>
    if c = '"' then some ([], rest)
    else if c = '\\' then
      match rest with
      | [] => none
      | e :: rest2 =>
        if e = 'u' then
          match rest2 with
          | h1 :: h2 :: h3 :: h4 :: rest3 =>
            match hexVal h1, hexVal h2, hexVal h3, hexVal h4 with
            | some a, some b, some cc, some d =>
              match parseStrBody rest3 with
              | some (body, r) =>
                  some (Char.ofNat (((a * 16 + b) * 16 + cc) * 16 + d) :: body, r)
              | none => none
            | _, _, _, _ => none
          | _ => none
        else
          match unescC e with
          | some ch =>
            match parseStrBody rest2 with
            | some (body, r) => some (ch :: body, r)
            | none => none
          | none => none
    else
      match parseStrBody rest with
      | some (body, r) => some (c :: body, r)
      | none => none

/-- Numeric value of a digit run. -/
def digitsToNat : List Char → Nat → Nat
  | [], acc => acc
  | c :: rest, acc => digitsToNat rest (acc * 10 + (c.toNat - 48))

/-- Parse a JSON integer token (an optional minus sign and a digit run). -/
def parseNumTok (s : List Char) : Option (Json × List Char) :=
  match s with
  | '-' :: rest =>
    if (rest.takeWhile isAsciiDigit).isEmpty then none
    else some (Json.num (-(Int.ofNat (digitsToNat (rest.takeWhile isAsciiDigit) 0))),
      rest.dropWhile isAsciiDigit)
  | _ =>
    if (s.takeWhile isAsciiDigit).isEmpty then none
    else some (Json.num (Int.ofNat (digitsToNat (s.takeWhile isAsciiDigit) 0)),
      s.dropWhile isAsciiDigit)

mutual

/-- Parse one JSON value (fuel-indexed): skip blanks and dispatch. -/
def parseVal : Nat → List Char → Option (Json × List Char)
  | 0, _ => none
  | Nat.succ fuel, s => parseValAfterWs fuel (skipWs s)

/-- Dispatch on the first character exactly as a recursive-descent reading
of the JSON grammar (the input is already blank-free at the front). -/
def parseValAfterWs : Nat → List Char → Option (Json × List Char)
  | _, [] => none
  | 0, _ :: _ => none
  | Nat.succ fuel, c :: r =>
      if c = obraceC then
        match parseObjBody fuel r with
        | some (l, rest) => some (Json.obj l, rest)
        | none => none
      else if c = '[' then
        match parseArrBody fuel r with
        | some (l, rest) => some (Json.arr l, rest)
        | none => none
      else if c = '"' then
        match parseStrBody r with
        | some (body, rest) => some (Json.str (String.mk body), rest)
        | none => none
      else if c = 't' then
        if ['r', 'u', 'e'].isPrefixOf r then some (Json.bool true, r.drop 3) else none
      else if c = 'f' then
        if ['a', 'l', 's', 'e'].isPrefixOf r then some (Json.bool false, r.drop 4) else none
      else if c = 'n' then
        if ['u', 'l', 'l'].isPrefixOf r then some (Json.null, r.drop 3) else none
      else if c = '-' || isAsciiDigit c then parseNumTok (c :: r)
      else none

/-- Parse an object body after the opening brace. -/
def parseObjBody : Nat → List Char → Option (List (String × Json) × List Char)
  | 0, _ => none
  | Nat.succ fuel, s =>
    match skipWs s with
    | [] => none
    | c :: r => if c = cbraceC then some ([], r) else parseObjMembers fuel [] (c :: r)

/-- Parse the members of an object; a repeated key keeps its first position
with the last value, as dict insertion does in json.loads. -/
def parseObjMembers : Nat → List (String × Json) →
    List Char → Option (List (String × Json) × List Char)
  | 0, _, _ => none
  | Nat.succ fuel, acc, s =>
    match skipWs s with
    | '"' :: r =>
      match parseStrBody r with
      | some (key, rest1) =>
        (match skipWs rest1 with
         | ':' :: rest2 =>
           match parseVal fuel rest2 with
           | some (v, rest3) =>
             (match skipWs rest3 with
              | ',' :: rest4 => parseObjMembers fuel (jsetKey acc (String.mk key) v) rest4
              | c2 :: rest4 =>
                  if c2 = cbraceC then some (jsetKey acc (String.mk key) v, rest4) else none
              | [] => none)
           | none => none
         | _ => none)
      | none => none
    | _ => none

/-- Parse an array body after the opening bracket. -/
def parseArrBody : Nat → List Char → Option (List Json × List Char)
  | 0, _ => none
  | Nat.succ fuel, s =>
    match skipWs s with
    | ']' :: r => some ([], r)
    | _ => parseArrItems fuel s

/-- Parse the comma-separated items of an array. -/
def parseArrItems : Nat → List Char → Option (List Json × List Char)
  | 0, _ => none
  | Nat.succ fuel, s =>
    match parseVal fuel s with
    | some (v, rest) =>
      (match skipWs rest with
       | ',' :: rest2 =>
         (match parseArrItems fuel rest2 with
          | some (items, rest3) => some (v :: items, rest3)
          | none => none)
       | ']' :: rest2 => some ([v], rest2)
       | _ => none)
    | none => none

end

/-- Model of json.loads on a character list: one value and then only blanks. -/
def jparseL (s : List Char) : Option Json :=
  match parseVal (4 * s.length + 8) s with
  | some (v, rest) => if skipWs rest = [] then some v else none
  | none => none

/-- Model of json.loads on a String. -/
def jparse (s : String) : Option Json := jparseL s.data

/-- Python repr of a parsed-JSON value, by fuel recursion over the nesting
depth (string quoting approximated by plain single-quote wrapping, as
exercised only on quote-free strings). -/
def pyReprF : Nat → Json → String
  | 0, _ => ""
  | Nat.succ f, j =>
    match j with
    | Json.null => "None"
    | Json.bool b => if b then "True" else "False"
    | Json.num n => toString n
    | Json.str s => String.mk (aposC :: s.data) ++ String.mk [aposC]
    | Json.arr l => "[" ++ sepJoin ", " (l.map (pyReprF f)) ++ "]"
    | Json.obj l =>
        String.mk [obraceC] ++
          sepJoin ", "
            (l.map (fun kv => pyReprF f (Json.str kv.1) ++ ": " ++ pyReprF f kv.2)) ++
          String.mk [cbraceC]

mutual

/-- Nesting size of a Json value, used as a fuel bound. -/
def jsize : Json → Nat
  | Json.null => 1
  | Json.bool _ => 1
  | Json.num _ => 1
  | Json.str _ => 1
  | Json.arr l => 1 + jsizeList l
  | Json.obj l => 1 + jsizePairs l

/-- Accumulated size of array items. -/
def jsizeList : List Json → Nat
  | [] => 0
  | x :: rest => jsize x + jsizeList rest

/-- Accumulated size of object members. -/
def jsizePairs : List (String × Json) → Nat
  | [] => 0
  | (_, v) :: rest => jsize v + jsizePairs rest

end

/-- Python repr of a parsed-JSON value (the size bound always suffices as fuel). -/
def pyRepr (j : Json) : String := pyReprF (jsize j) j

/-- Python str of a parsed-JSON value, as interpolated by f-strings. -/
def pyStr : Json → String
  | Json.str s => s
  | v => pyRepr v

/-! Model of agent.extract_tool_plan. -/

/-- Brace-depth scan of extract_tool_plan on the text from the first opening
brace: depth rises on an opening and falls on a closing brace, and the
relative index of the position where it returns to zero is reported; the
scan gives up once more than 10000 characters past the start are read. -/
def braceDelta (c : Char) (depth : Int) : Int :=
  if c = obraceC then depth + 1 else if c = cbraceC then depth - 1 else depth

def closeScanAux : List Char → Int → Nat → Option Nat
  | [], _, _ => none
  | c :: rest, depth, k =>
    if c = cbraceC && braceDelta c depth = 0 then some k
    else if k > 10000 then none
    else closeScanAux rest (braceDelta c depth) (k + 1)

/-- Brace-depth scan from the start of a text. -/
def closeScan (s : List Char) : Option Nat := closeScanAux s 0 0

/-- Whether json.loads succeeds and yields a dict. -/
def jparseIsObjL (s : List Char) : Bool :=
  match jparseL s with
  | some (Json.obj _) => true
  | _ => false

/-- Core of extract_tool_plan on the trimmed character list: try a direct
parse, else take the substring from the first opening brace to the
position where brace depth returns to zero and parse that; any failure
yields none. -/
def extractCore (t : List Char) : Option Json :=
  if t.isEmpty then none
  else
    match jparseL t with
    | some (Json.obj l) => some (Json.obj l)
    | _ =>
      match firstIdxOf t obraceC with
      | none => none
      | some i =>
        match closeScan (t.drop i) with
        | none => none
        | some m =>
          match jparseL ((t.drop i).take (m + 1)) with
          | some (Json.obj l) => some (Json.obj l)
          | _ => none

/-- agent.extract_tool_plan: the guard for empty or blank text and the
trim, then the core extraction. -/
def extractToolPlan (text : String) : Option Json :=
  extractCore (pyStrip text).data

/-! Model of agent.normalize_tool_arguments. -/

/-- agent.normalize_tool_arguments: first branch on whether args is a dict,
then on the tool name, exactly as the source does.  The tool name is kept
as a Json value because callers pass plan fields of any shape; a
comparison with a string literal is false for non-string names, as in
Python. -/
def normalizeToolArguments (toolName : Json) (args : Json) : Json :=
  match args with
  | Json.obj l =>
    if jeqStr toolName "resolve_date_tool" then
      let text := jor (jor (jor (jget l "text") (jget l "date_string"))
        (jget l "date")) (jget l "query")
      Json.obj [("text", if !(jtruthy text) || !(jisStr text) then Json.str "" else text)]
    else if jeqStr toolName "sql_read_tool" then
      let sq := jor (jget l "sql") (jget l "query")
      let base := [("sql", jor sq (Json.str ""))]
      let base2 := if jhasKey l "params" then base ++ [("params", jget l "params")] else base
      Json.obj (if jhasKey l "row_limit" then base2 ++ [("row_limit", jget l "row_limit")]
                else base2)
    else if jeqStr toolName "list_appointments_tool" ||
        jeqStr toolName "patients_by_reason_tool" ||
        jeqStr toolName "appointment_stats_tool" ||
        jeqStr toolName "check_doctor_availability" then
      let payload := match jget l "query" with
                     | Json.obj q => q
                     | _ => l
      let payload2 :=
        if jeqStr toolName "appointment_stats_tool" && jhasKey payload "date" &&
            !(jhasKey payload "for_date") then
          jdelKey (jsetKey payload "for_date" (jget payload "date")) "date"
        else payload
      let payload3 :=
        if jeqStr toolName "patients_by_reason_tool" && jhasKey payload2 "condition_like" &&
            !(jhasKey payload2 "reason_like") then
          jdelKey (jsetKey payload2 "reason_like" (jget payload2 "condition_like"))
            "condition_like"
        else payload2
      Json.obj [("query", Json.obj payload3)]
    else if jeqStr toolName "book_appointment_tool" ||
        jeqStr toolName "register_patient_tool" ||
        jeqStr toolName "cancel_appointments_by_date_tool" then
      if jhasKey l "data" && jisObj (jget l "data") then Json.obj l
      else Json.obj [("data", Json.obj l)]
    else Json.obj l
  | a =>
    if jeqStr toolName "resolve_date_tool" then
      Json.obj [("text", Json.str (pyStr a))]
    else if jeqStr toolName "sql_read_tool" then
      Json.obj [("sql", Json.str (pyStr a))]
    else if jeqStr toolName "book_appointment_tool" ||
        jeqStr toolName "register_patient_tool" ||
        jeqStr toolName "cancel_appointments_by_date_tool" then
      Json.obj [("data", Json.obj [("raw", Json.str (pyStr a))])]
    else if jeqStr toolName "check_doctor_availability" then
      Json.obj [("query", Json.obj [("text", Json.str (pyStr a))])]
    else Json.obj [("query", Json.obj [("raw", Json.str (pyStr a))])]

/-! Model of datetime.fromisoformat and strftime as exercised by the
formatters (date plus optional time and offset; fractional seconds and
compact layouts are not exchanged by the backend and are not modeled). -/

/-- Value of a two-digit run, when both characters are digits. -/
def twoDigits : List Char → Option Nat
  | a :: b :: _ =>
      if isAsciiDigit a && isAsciiDigit b then some ((a.toNat - 48) * 10 + (b.toNat - 48))
      else none
  | _ => none

/-- Gregorian leap-year test. -/
def isLeapYear (y : Nat) : Bool := (y % 4 = 0 && y % 100 ≠ 0) || y % 400 = 0

/-- Number of days in a month. -/
def daysInMonth (y m : Nat) : Nat :=
  if m = 2 then (if isLeapYear y then 29 else 28)
  else if m = 4 || m = 6 || m = 9 || m = 11 then 30
  else 31

/-- Validity of a calendar date as enforced by datetime. -/
def validDate (y m d : Nat) : Bool :=
  1 ≤ y && y ≤ 9999 && 1 ≤ m && m ≤ 12 && 1 ≤ d && d ≤ daysInMonth y m

/-- Parse the optional offset tail of an ISO timestamp. -/
def parseIsoOffset : List Char → Bool
  | [] => true
  | ['Z'] => true
  | sign :: rest =>
      (sign = '+' || sign = '-') &&
      (match twoDigits rest, rest.drop 2 with
       | some oh, ':' :: mrest =>
         (match twoDigits mrest with
          | some om => oh < 24 && om < 60 && mrest.drop 2 = []
          | none => false)
       | _, _ => false)

/-- Parse the optional time tail of an ISO timestamp, yielding hour and minute. -/
def parseIsoTime (s : List Char) : Option (Nat × Nat) :=
  match twoDigits s with
  | none => none
  | some hh =>
    if hh ≥ 24 then none
    else
      match s.drop 2 with
      | [] => some (hh, 0)
      | ':' :: rest =>
        (match twoDigits rest with
         | none => none
         | some mm =>
           if mm ≥ 60 then none
           else
             match rest.drop 2 with
             | ':' :: rest2 =>
               (match twoDigits rest2 with
                | none => none
                | some ss =>
                  if ss ≥ 60 then none
                  else if parseIsoOffset (rest2.drop 2) then some (hh, mm) else none)
             | tail => if parseIsoOffset tail then some (hh, mm) else none)
      | tail => if parseIsoOffset tail then some (hh, 0) else none

/-- Model of datetime.fromisoformat, yielding (year, month, day, hour, minute). -/
def pyFromIso (s : List Char) : Option (Nat × Nat × Nat × Nat × Nat) :=
  match s with
  | y1 :: y2 :: y3 :: y4 :: '-' :: m1 :: m2 :: '-' :: d1 :: d2 :: rest =>
    if isAsciiDigit y1 && isAsciiDigit y2 && isAsciiDigit y3 && isAsciiDigit y4 &&
        isAsciiDigit m1 && isAsciiDigit m2 && isAsciiDigit d1 && isAsciiDigit d2 then
      let y := ((y1.toNat - 48) * 10 + (y2.toNat - 48)) * 100 +
        (y3.toNat - 48) * 10 + (y4.toNat - 48)
      let m := (m1.toNat - 48) * 10 + (m2.toNat - 48)
      let d := (d1.toNat - 48) * 10 + (d2.toNat - 48)
      if validDate y m d then
        match rest with
        | [] => some (y, m, d, 0, 0)
        | sep :: trest =>
          if sep = 'T' || sep = ' ' then
            match parseIsoTime trest with
            | some (hh, mm) => some (y, m, d, hh, mm)
            | none => none
          else none
      else none
    else none
  | _ => none

/-- Zero-padded two-digit rendering, as strftime %m, %d, %H, %M. -/
def fmt2 (n : Nat) : String := (if n < 10 then "0" else "") ++ toString n

/-- strftime %Y-%m-%d of a parsed timestamp (glibc leaves the year unpadded). -/
def strfDate (p : Nat × Nat × Nat × Nat × Nat) : String :=
  toString p.1 ++ "-" ++ fmt2 p.2.1 ++ "-" ++ fmt2 p.2.2.1

/-- strftime %H:%M of a parsed timestamp. -/
def strfHM (p : Nat × Nat × Nat × Nat × Nat) : String :=
  fmt2 p.2.2.2.1 ++ ":" ++ fmt2 p.2.2.2.2

/-! Model of the response formatters. -/

/-- Character-class template of one \d\{4\}-\d\{2\}-\d\{2\}T\d\{2\}:\d\{2\}:\d\{2\}+00:00
stamp of the availability slot pattern. -/
def stampTemplate : List (Char → Bool) :=
  [isAsciiDigit, isAsciiDigit, isAsciiDigit, isAsciiDigit, (· = '-'),
   isAsciiDigit, isAsciiDigit, (· = '-'), isAsciiDigit, isAsciiDigit, (· = 'T'),
   isAsciiDigit, isAsciiDigit, (· = ':'), isAsciiDigit, isAsciiDigit, (· = ':'),
   isAsciiDigit, isAsciiDigit, (· = '+'), (· = '0'), (· = '0'), (· = ':'),
   (· = '0'), (· = '0')]

/-- Whether a template matches a prefix of the text (re.match anchoring). -/
def matchesTemplate : List (Char → Bool) → List Char → Bool
  | [], _ => true
  | _ :: _, [] => false
  | p :: ps, c :: cs => p c && matchesTemplate ps cs

/-- One line of the availability formatter: a slot whose text starts with
two ISO stamps joined by a hyphen is rendered as date and time range via
fromisoformat and strftime; any other value falls back to a dash line. -/
def slotLine (slot : Json) : String :=
  match slot with
  | Json.str s =>
    let cs := s.data
    if matchesTemplate stampTemplate cs &&
        (match cs.drop 25 with
         | '-' :: rest => matchesTemplate stampTemplate rest
         | _ => false) then
      match pyFromIso (cs.take 25), pyFromIso ((cs.drop 26).take 25) with
      | some p1, some p2 => "- " ++ strfDate p1 ++ " " ++ strfHM p1 ++ "–" ++ strfHM p2
      | _, _ => "- " ++ s
    else "- " ++ s
  | v => "- " ++ pyStr v

/-- Body of the availability formatter for a non-empty slot sequence. -/
def availBody (doctor : String) (l : List Json) : String :=
  let res := doctor ++ "\x27s next available slots:\n" ++ sepJoin "\n" ((l.take 6).map slotLine)
  (if 6 < l.length then res ++ "\n…and " ++ toString (l.length - 6) ++ " more" else res) ++
    "\nWhich time works for you?"

/-- agent.format_availability_response.  A Python string value for
available_slots is sliced and iterated character-wise like a list; any
other truthy non-list value raises when sliced and the handler returns
the content unchanged. -/
def formatAvailability (content : String) : String :=
  match jparse content with
  | some (Json.obj d) =>
    let doctor := pyStr (if jhasKey d "doctor_name" then jget d "doctor_name"
                         else Json.str "the doctor")
    let slots := if jhasKey d "available_slots" then jget d "available_slots" else Json.arr []
    if !(jtruthy slots) then
      "No available slots found for " ++ doctor ++ " in the next 3 weeks."
    else
      match slots with
      | Json.arr l => availBody doctor l
      | Json.str s2 => availBody doctor (s2.data.map (fun c => Json.str (String.mk [c])))
      | _ => content
  | _ => content

/-- agent.format_stats_response. -/
def formatStats (content : String) : String :=
  match jparse content with
  | some (Json.obj d) =>
    let total := if jhasKey d "total_appointments" then jget d "total_appointments"
                 else Json.num 0
    let completed := if jhasKey d "completed" then jget d "completed" else Json.num 0
    let canceled := if jhasKey d "canceled" then jget d "canceled" else Json.num 0
    let byCondition := jor (jget d "by_condition") (Json.obj [])
    if jtruthy (jget d "slack_sent") then
      "Appointment summary has been sent to Slack successfully!"
    else
      let parts := ["Total appointments: " ++ pyStr total, "Completed: " ++ pyStr completed,
        "Canceled: " ++ pyStr canceled]
      if jtruthy byCondition then
        match byCondition with
        | Json.obj bc =>
            sepJoin "; " (parts ++
              ["By reason: " ++ sepJoin ", " (bc.map (fun kv => kv.1 ++ ": " ++ pyStr kv.2))])
        | _ => content
      else sepJoin "; " parts
  | _ => content

/-- Collect a list of optional values, failing as soon as one is missing. -/
def listAllSome : List (Option String) → Option (List String)
  | [] => some []
  | none :: _ => none
  | some x :: rest =>
      match listAllSome rest with
      | some xs => some (x :: xs)
      | none => none

/-- One appointment line of format_appointments_list; none models the
exception path (missing key, non-string or invalid timestamp). -/
def apptLine (a : Json) : Option String :=
  match a with
  | Json.obj m =>
    if jhasKey m "start_at" && jhasKey m "end_at" then
      match jget m "start_at", jget m "end_at" with
      | Json.str st, Json.str et =>
        (match pyFromIso st.data, pyFromIso et.data with
         | some p1, some p2 =>
           some ("- " ++
             pyStr (if jhasKey m "doctor_name" then jget m "doctor_name"
                    else Json.str "Unknown Doctor") ++ " — " ++
             pyStr (if jhasKey m "patient_name" then jget m "patient_name"
                    else Json.str "Unknown Patient") ++
             " (" ++ strfHM p1 ++ "–" ++ strfHM p2 ++ ") — " ++
             pyStr (jor (jget m "description") (Json.str "No reason")) ++ " [#" ++
             pyStr (if jhasKey m "appointment_id" then jget m "appointment_id"
                    else Json.str "N/A") ++ "]")
         | _, _ => none)
      | _, _ => none
    else none
  | _ => none

/-- agent.format_appointments_list. -/
def formatAppointmentsList (content : String) : String :=
  match jparse content with
  | some (Json.obj d) =>
    let appts := if jhasKey d "appointments" then jget d "appointments" else Json.arr []
    if !(jtruthy appts) then "No appointments found."
    else
      match appts with
      | Json.arr l =>
        (match listAllSome ((l.take 10).map apptLine) with
         | some lines =>
           let res := "Appointments:\n" ++ sepJoin "\n" lines
           if 10 < l.length then res ++ "\n…and " ++ toString (l.length - 10) ++ " more"
           else res
         | none => content)
      | _ => content
  | _ => content

/-- One patient line of format_patients_by_reason; none models the exception path. -/
def patientLine (a : Json) : Option String :=
  match a with
  | Json.obj m =>
    if jhasKey m "start_at" && jhasKey m "end_at" then
      match jget m "start_at", jget m "end_at" with
      | Json.str st, Json.str et =>
        (match pyFromIso st.data, pyFromIso et.data with
         | some p1, some p2 =>
           some ("- " ++
             pyStr (if jhasKey m "patient_name" then jget m "patient_name"
                    else Json.str "Unknown") ++ " (" ++
             pyStr (if jhasKey m "patient_email" then jget m "patient_email"
                    else Json.str "") ++ ") — appt #" ++
             pyStr (if jhasKey m "appointment_id" then jget m "appointment_id"
                    else Json.str "N/A") ++ " " ++ strfHM p1 ++ "–" ++ strfHM p2)
         | _, _ => none)
      | _, _ => none
    else none
  | _ => none

/-- agent.format_patients_by_reason. -/
def formatPatientsByReason (content : String) : String :=
  match jparse content with
  | some (Json.obj d) =>
    let pats := if jhasKey d "patients" then jget d "patients" else Json.arr []
    if !(jtruthy pats) then "No matching patients found."
    else
      match pats with
      | Json.arr l =>
        (match listAllSome ((l.take 10).map patientLine) with
         | some lines =>
           let res := "Patients by reason:\n" ++ sepJoin "\n" lines
           if 10 < l.length then res ++ "\n…and " ++ toString (l.length - 10) ++ " more"
           else res
         | none => content)
      | _ => content
  | _ => content

/-- agent.format_success_response (a non-string error or message value is
rendered via str here, where Python would return the raw value). -/
def formatSuccess (content : String) : String :=
  match jparse content with
  | some (Json.obj d) =>
    if jtruthy (jget d "error") then pyStr (jget d "error")
    else pyStr (if jhasKey d "message" then jget d "message"
                else Json.str "Operation completed successfully.")
  | _ => content

/-- agent.format_tool_response. -/
def formatToolResponse (toolName : Json) (content : String) : String :=
  if jeqStr toolName "check_doctor_availability" then formatAvailability content
  else if jeqStr toolName "appointment_stats_tool" then formatStats content
  else if jeqStr toolName "list_appointments_tool" then formatAppointmentsList content
  else if jeqStr toolName "patients_by_reason_tool" then formatPatientsByReason content
  else if jeqStr toolName "register_patient_tool" || jeqStr toolName "book_appointment_tool"
    then formatSuccess content
  else content

/-! Executable models of the concrete regular expressions of agent.py.
Each matcher reproduces re.search semantics for its one pattern: leftmost
overall match, greedy or lazy quantifier order, the dot not crossing a
newline, and ASCII word boundaries. -/

/-- Whether the characters of s at positions lo up to hi can be spanned by
dot-star (no newline among them). -/
def noNewlineBetween (s : List Char) (lo hi : Nat) : Bool :=
  ((s.drop lo).take (hi - lo)).all (· ≠ '\n')

/-- re.search of a pattern (literal a)(dot-star)(literal b). -/
def dotStar (a b : String) (s : String) : Bool :=
  let cs := s.data
  (List.range (cs.length + 1)).any (fun i =>
    occursAt a.data cs i &&
    (List.range (cs.length + 1)).any (fun j =>
      decide (i + a.data.length ≤ j) && occursAt b.data cs j &&
        noNewlineBetween cs (i + a.data.length) j))

/-- Character-class template of a plain \d\{4\}-\d\{2\}-\d\{2\} date literal. -/
def dateTemplate : List (Char → Bool) :=
  [isAsciiDigit, isAsciiDigit, isAsciiDigit, isAsciiDigit, (· = '-'),
   isAsciiDigit, isAsciiDigit, (· = '-'), isAsciiDigit, isAsciiDigit]

/-- Date literal at a position, without word boundaries (as inside the
temporal alternations). -/
def datePlainAt (cs : List Char) (j : Nat) : Bool := matchesTemplate dateTemplate (cs.drop j)

/-- One branch of the temporal alternation today|tomorrow|yesterday|date. -/
def temporalAt (cs : List Char) (j : Nat) : Bool :=
  occursAt "today".data cs j || occursAt "tomorrow".data cs j ||
  occursAt "yesterday".data cs j || datePlainAt cs j

/-- re.search of (literal a)(dot-star)(temporal alternation). -/
def dotStarTemporal (a : String) (s : String) : Bool :=
  let cs := s.data
  (List.range (cs.length + 1)).any (fun i =>
    occursAt a.data cs i &&
    (List.range (cs.length + 1)).any (fun j =>
      decide (i + a.data.length ≤ j) && temporalAt cs j &&
        noNewlineBetween cs (i + a.data.length) j))

/-- re.search of summary(dot-star)(for|on)(dot-star)(temporal alternation). -/
def summaryTemporal (s : String) : Bool :=
  let cs := s.data
  (List.range (cs.length + 1)).any (fun i =>
    occursAt "summary".data cs i &&
    (List.range (cs.length + 1)).any (fun j =>
      ["for", "on"].any (fun mid =>
        decide (i + 7 ≤ j) && occursAt mid.data cs j && noNewlineBetween cs (i + 7) j &&
        (List.range (cs.length + 1)).any (fun k =>
          decide (j + mid.data.length ≤ k) && temporalAt cs k &&
            noNewlineBetween cs (j + mid.data.length) k))))

/-- agent.process_llm_response data-query patterns, applied to the lowered
message; true when any of the nine patterns matches. -/
def isDataQuery (message : String) : Bool :=
  let m := lowerS message
  dotStar "list" "appointment" m || dotStar "show" "appointment" m ||
  dotStar "how many" "appointment" m ||
  dotStar "patient" "with" m || dotStar "patient" "having" m ||
  dotStarTemporal "appointment" m ||
  dotStar "available" "slot" m || dotStar "book" "appointment" m ||
  dotStar "send" "slack" m || dotStar "slack" "summary" m || dotStar "summary" "slack" m ||
  summaryTemporal m

/-- Word-boundary-delimited date literal at a position. -/
def dateWBAt (cs : List Char) (i : Nat) : Bool :=
  (decide (i = 0) || !(isWordC (cs.getD (i - 1) ' '))) && datePlainAt cs i &&
  (decide (i + 10 = cs.length) || !(isWordC (cs.getD (i + 10) ' ')))

/-- Leftmost \b\d\{4\}-\d\{2\}-\d\{2\}\b match of force_tool_usage. -/
def findDateWB (s : String) : Option String :=
  let cs := s.data
  ((List.range (cs.length + 1)).find? (fun i => dateWBAt cs i)).map
    (fun i => String.mk ((cs.drop i).take 10))

/-- Characters of the class [a-zA-Z\s] of the capture groups. -/
def condCls (c : Char) : Bool := isAsciiAlpha c || isPyWs c

/-- Continuation \s+([a-zA-Z\s]+) at a position: the whitespace run is taken
greedily and given back one character when no class character follows;
returns the captured group. -/
def wsThenClassRun (cs : List Char) (m : Nat) : Option (List Char) :=
  let tail := cs.drop m
  let w := (tail.takeWhile isPyWs).length
  if w = 0 then none
  else
    match tail.drop w with
    | c :: _ =>
        if condCls c then some ((tail.drop w).takeWhile condCls)
        else if 2 ≤ w then some ((tail.drop (w - 1)).takeWhile condCls)
        else none
    | [] => if 2 ≤ w then some ((tail.drop (w - 1)).takeWhile condCls) else none

/-- Alternation (with|having) followed by the class continuation at a position. -/
def withHavingAt (cs : List Char) (q : Nat) : Option (List Char) :=
  if occursAt "with".data cs q then wsThenClassRun cs (q + 4)
  else if occursAt "having".data cs q then wsThenClassRun cs (q + 6)
  else none

/-- Greedy dot-star before (with|having): the rightmost viable position wins,
and the gap may not contain a newline. -/
def lastViableWithHaving (cs : List Char) (j : Nat) : Option (List Char) :=
  ((List.range (cs.length + 1)).reverse).findSome? (fun q =>
    if decide (j ≤ q) && noNewlineBetween cs j q then withHavingAt cs q else none)

/-- Overall match of patients?(dot-star)(with|having)\s+([a-zA-Z\s]+)
anchored at one position (the greedy s? is tried consumed first). -/
def patientsCondAt (cs : List Char) (i : Nat) : Option (List Char) :=
  if occursAt "patient".data cs i then
    let withS := match cs.drop (i + 7) with
                 | 's' :: _ => lastViableWithHaving cs (i + 8)
                 | _ => none
    match withS with
    | some g => some g
    | none => lastViableWithHaving cs (i + 7)
  else none

/-- Captured condition of the patient-search pattern of force_tool_usage
(group 2 of the leftmost match). -/
def patientsCondCapture (s : String) : Option String :=
  let cs := s.data
  ((List.range (cs.length + 1)).findSome? (fun i => patientsCondAt cs i)).map
    (fun g => String.mk g)

/-- Overall match of dr\.?\s+([a-zA-Z\s]+) anchored at one position (the
optional dot is tried consumed first; the unconsumed branch then fails at
\s+ against the dot). -/
def drNameAt (cs : List Char) (i : Nat) : Option (List Char) :=
  if occursAt "dr".data cs i then
    match cs.drop (i + 2) with
    | '.' :: _ =>
      (match wsThenClassRun cs (i + 3) with
       | some g => some g
       | none => wsThenClassRun cs (i + 2))
    | _ => wsThenClassRun cs (i + 2)
  else none

/-- Captured doctor-name text of the availability pattern of force_tool_usage. -/
def drCapture (s : String) : Option String :=
  let cs := s.data
  ((List.range (cs.length + 1)).findSome? (fun i => drNameAt cs i)).map
    (fun g => String.mk g)

/-! The ambient clock (datetime.now) and the oracles. -/

/-- Ambient environment: the credential flag and the rendered dates of the
current clock (today, today plus one day, today minus one day). -/
structure Env where
  hasApiKey : Bool
  todayIso : String
  tomorrowIso : String
  yesterdayIso : String

/-- Tool backend oracle: tool name and arguments to the joined text content
of the result, or the message of a raised exception. -/
abbrev ToolCall := Json → Json → Except String String

/-- Trace of backend invocations (tool name and arguments, in order). -/
abbrev Trace := List (Json × Json)

/-- One stored conversation turn: role and content. -/
abbrev Turn := String × String

/-- Language-model oracle: history and message to the completion text. -/
abbrev Llm := List Turn → String → String

/-! Models of the policy enforcer and the executors. -/

/-- Date chosen by force_tool_usage: an explicit date literal in the message,
else the keyword-selected clock date, defaulting to today. -/
def forcedDate (env : Env) (message : String) : String :=
  let ml := lowerS message
  match findDateWB message with
  | some d => d
  | none =>
    if containsS ml "today" then env.todayIso
    else if containsS ml "tomorrow" then env.tomorrowIso
    else if containsS ml "yesterday" then env.yesterdayIso
    else env.todayIso

/-- Tool name and arguments chosen deterministically by force_tool_usage,
in the if-elif order of the source: count query, then list query, then
patient search, then availability, then Slack summary, then the stats
fallback. -/
def forcedSelect (env : Env) (message : String) : String × Json :=
  let ml := lowerS message
  let qd := Json.str (forcedDate env message)
  if dotStar "how many" "appointment" ml then
    ("appointment_stats_tool", Json.obj [("query", Json.obj [("for_date", qd)])])
  else if dotStar "list" "appointment" ml || dotStar "show" "appointment" ml then
    ("list_appointments_tool", Json.obj [("query", Json.obj [("for_date", qd)])])
  else
    match patientsCondCapture ml with
    | some cond =>
      ("patients_by_reason_tool",
       Json.obj [("query", Json.obj [("reason_like", Json.str (pyStrip cond)),
         ("for_date", qd)])])
    | none =>
      if dotStar "available" "slot" ml then
        let dn := match drCapture ml with
                  | some g => "Dr. " ++ pyTitle (pyStrip g)
                  | none => "Dr. Ahuja"
        ("check_doctor_availability",
         Json.obj [("query", Json.obj [("doctor_name", Json.str dn), ("date", qd)])])
      else if dotStar "send" "slack" ml || dotStar "slack" "summary" ml ||
          dotStar "summary" "slack" ml then
        ("appointment_stats_tool",
         Json.obj [("query", Json.obj [("for_date", qd), ("notify", Json.bool true)])])
      else
        ("appointment_stats_tool", Json.obj [("query", Json.obj [("for_date", qd)])])

/-- agent.force_tool_usage: one forced backend call, its formatted result,
or the error text naming the tool when the call raises. -/
def forceToolUsage (env : Env) (call : ToolCall) (message : String) : String × Trace :=
  let sel := forcedSelect env message
  match call (Json.str sel.1) sel.2 with
  | Except.ok content => (formatToolResponse (Json.str sel.1) content, [(Json.str sel.1, sel.2)])
  | Except.error e => ("Error calling " ++ sel.1 ++ ": " ++ e, [(Json.str sel.1, sel.2)])

/-- Display name derived from the patient email local part in
handle_patient_registration_and_booking. -/
def derivedPatientName (email : String) : String :=
  let namePart := String.mk (email.data.takeWhile (· ≠ '@'))
  let spaced := namePart.data.map (fun c => if c = '.' || c = '_' || c = '-' then ' ' else c)
  let cleaned := (spaced.filter (fun c => !(isAsciiDigit c))).filter
    (fun c => isAsciiAlpha c || isPyWs c)
  let pname := sepJoin " " ((pySplitWs (String.mk cleaned)).map pyCapitalize)
  if pname = "" then "User " ++ namePart else pname

/-- agent.handle_patient_registration_and_booking.  A raised backend call is
reported with the error text of the outer handler; a truthy non-string
patient_email raises on split and is likewise reported (the exception
message itself is abstracted to the oracle error or a fixed marker). -/
def handleRegistrationAndBooking (call : ToolCall) (bookingArgs : Json) : String × Trace :=
  let data := jgetD bookingArgs "data" (Json.obj [])
  let pe := jgetD data "patient_email" (Json.str "")
  if !(jtruthy pe) then ("Unable to register patient: email address is required.", [])
  else
    match pe with
    | Json.str email =>
      let pname := derivedPatientName email
      let regArgs := Json.obj [("data", Json.obj [("name", Json.str pname),
        ("email", Json.str email),
        ("primary_condition", jgetD data "description" (Json.str "general consultation"))])]
      (match call (Json.str "register_patient_tool") regArgs with
       | Except.error e =>
         ("Error during patient registration and booking: " ++ e,
          [(Json.str "register_patient_tool", regArgs)])
       | Except.ok regContent =>
         if ["successfully", "registered", "created", "added"].any
             (fun kw => containsS (lowerS regContent) kw) then
           match call (Json.str "book_appointment_tool") bookingArgs with
           | Except.ok bc =>
             ("Welcome! I\x27ve registered you as a new patient (" ++ pname ++ ") and " ++
                lowerS (formatToolResponse (Json.str "book_appointment_tool") bc),
              [(Json.str "register_patient_tool", regArgs),
               (Json.str "book_appointment_tool", bookingArgs)])
           | Except.error e2 =>
             ("Error during patient registration and booking: " ++ e2,
              [(Json.str "register_patient_tool", regArgs),
               (Json.str "book_appointment_tool", bookingArgs)])
         else
           ("Unable to register new patient: " ++ regContent,
            [(Json.str "register_patient_tool", regArgs)]))
    | _ => ("Error during patient registration and booking: attribute error", [])

/-- agent.execute_tool_plan: normalize, call, format, and hand a failed
booking over to the registration-and-retry handler. -/
def executeToolPlan (call : ToolCall) (plan : Json) : String × Trace :=
  let tn := jgetD plan "tool_name" Json.null
  let args := normalizeToolArguments tn (jgetD plan "args" (Json.obj []))
  match call tn args with
  | Except.error e => ("Error executing tool " ++ pyStr tn ++ ": " ++ e, [(tn, args)])
  | Except.ok content =>
    let fr := formatToolResponse tn content
    if jeqStr tn "book_appointment_tool" && containsS fr "Patient not found" then
      let h := handleRegistrationAndBooking call args
      (h.1, (tn, args) :: h.2)
    else (fr, [(tn, args)])

/-- Whether the extracted plan is missing or carries no truthy tool_name. -/
def planHasNoTool : Option Json → Bool
  | none => true
  | some p => !(jtruthy (jgetD p "tool_name" Json.null))

/-- agent.process_llm_response: force a deterministic tool call for a data
query without a plan, execute an extracted plan, or pass the model text
through. -/
def processLLMResponse (env : Env) (call : ToolCall) (llmResponse message : String) :
    String × Trace :=
  let plan := extractToolPlan llmResponse
  if isDataQuery message && planHasNoTool plan then forceToolUsage env call message
  else
    match plan with
    | some p =>
        if jtruthy (jgetD p "tool_name" Json.null) then executeToolPlan call p
        else (llmResponse, [])
    | none => (llmResponse, [])

/-- agent.call_llm_with_tools: the fixed apology when no credential is
configured, else one completion stripped and handed to
process_llm_response (prompt construction is absorbed into the oracle). -/
def callLlmWithTools (env : Env) (call : ToolCall) (llm : Llm) (message : String)
    (history : List Turn) : String × Trace :=
  if !env.hasApiKey then ("Sorry, LLM service is not configured.", [])
  else processLLMResponse env call (pyStrip (llm history message)) message

/-! Model of the relative-date rewrite (resolve_relative_dates and
replace_relative_date). -/

/-- Weekday names searched in loop order. -/
def weekdayNames : List String :=
  ["monday", "tuesday", "wednesday", "thursday", "friday", "saturday", "sunday"]

/-- Keyword selected by resolve_relative_dates on the lowered message: the
first weekday (with its optional next prefix), else a tomorrow variant,
else yesterday, else today. -/
def selectDateKeyword (ml : String) : Option String :=
  match weekdayNames.findSome? (fun day =>
    if containsS ml ("next " ++ day) then some ("next " ++ day)
    else if containsS ml day then some day else none) with
  | some kw => some kw
  | none =>
    if ["tomorrow", "tommor", "tmrw", "tmr"].any (fun v => containsS ml v) then some "tomorrow"
    else if containsS ml "yesterday" then some "yesterday"
    else if containsS ml "today" then some "today"
    else none

/-- Right word-boundary test against the remaining text. -/
def boundaryRight : List Char → Bool
  | [] => true
  | c :: _ => !(isWordC c)

/-- Length matched at the head of s by the possessive keyword pattern of
replace_relative_date with IGNORECASE: requires a non-word character
before (prevWord false), the keyword case-insensitively, then greedily an
optional apostrophe-s, with a word boundary after. -/
def kwMatchLen (kw : List Char) (prevWord : Bool) (s : List Char) : Option Nat :=
  if prevWord then none
  else if (s.take kw.length).map lowerC == kw then
    match s.drop kw.length with
    | a :: b :: rest2 =>
      if a = aposC && lowerC b = 's' && boundaryRight rest2 then some (kw.length + 2)
      else if boundaryRight (a :: b :: rest2) then some kw.length else none
    | rest => if boundaryRight rest then some kw.length else none
  else none

/-- Scanning substitution of re.sub: at each position the pattern is tried;
a match emits the replacement and skips the span, otherwise one character
is copied; prevWord tracks whether the previous original character was a
word character (the last character of a matched span always is). -/
def kwSubF : Nat → List Char → List Char → Bool → List Char → List Char
  | 0, _, _, _, s => s
  | Nat.succ f, kw, repl, prevWord, s =>
    match s with
    | [] => []
    | c :: rest =>
      match kwMatchLen kw prevWord s with
      | some len => repl ++ kwSubF f kw repl true (s.drop len)
      | none => c :: kwSubF f kw repl (isWordC c) rest

/-- agent.replace_relative_date: every occurrence of the keyword pattern in
the text is replaced with the resolved date. -/
def replaceRelativeDate (text resolvedDate keyword : String) : String :=
  String.mk (kwSubF text.data.length keyword.data resolvedDate.data false text.data)

/-- agent.resolve_relative_dates: select at most one keyword, resolve it
through the backend, and on a truthy string date rewrite the message; any
failure (raised call, unparsable content, missing or non-string date)
leaves the message unchanged. -/
def resolveRelativeDates (call : ToolCall) (message : String) : String × Trace :=
  match selectDateKeyword (lowerS message) with
  | none => (message, [])
  | some kw =>
    let args := Json.obj [("text", Json.str kw)]
    let tr : Trace := [(Json.str "resolve_date_tool", args)]
    match call (Json.str "resolve_date_tool") args with
    | Except.error _ => (message, tr)
    | Except.ok content =>
      match jparse content with
      | some (Json.obj d) =>
        (match jget d "date" with
         | Json.str dt =>
             if dt = "" then (message, tr) else (replaceRelativeDate message dt kw, tr)
         | _ => (message, tr))
      | _ => (message, tr)

/-! Model of extract_doctor_and_period and the date-resolution chaining. -/

/-- Characters of the class [a-z\.\x27-] of the lazy doctor-name pattern
(matched on the lowered text). -/
def nameCls (c : Char) : Bool := isAsciiLower c || c = '.' || c = aposC || c = '-'

/-- Word-boundary test at an inner position (at least one character before it). -/
def boundaryAt (cs : List Char) (pos : Nat) : Bool :=
  isWordC (cs.getD (pos - 1) ' ') != (decide (pos < cs.length) && isWordC (cs.getD pos ' '))

/-- Length of the name-class run from a position. -/
def nameClsRun (cs : List Char) (x : Nat) : Nat := ((cs.drop x).takeWhile nameCls).length

/-- Whitespace-run length from a position. -/
def wsRun (cs : List Char) (x : Nat) : Nat := ((cs.drop x).takeWhile isPyWs).length

/-- Descending candidates w, w-1, ..., 1 for backtracking a greedy plus. -/
def descFrom (w : Nat) : List Nat := (List.range w).reverse.map (fun x => x + 1)

/-- End position of the optional greedy second word \s+[a-z][a-z\.\x27-]* of
the doctor-name pattern, starting at q, with the trailing \b. -/
def secondWordEnd (cs : List Char) (q : Nat) : Option Nat :=
  let w2 := wsRun cs q
  if w2 = 0 then none
  else
    (descFrom w2).findSome? (fun n2 =>
      let r := q + n2
      if decide (r < cs.length) && isAsciiLower (cs.getD r ' ') then
        let e := r + 1 + nameClsRun cs (r + 1)
        ((List.range (e - r)).map (fun x => e - x)).findSome? (fun e2 =>
          if boundaryAt cs e2 then some e2 else none)
      else none)

/-- End of the lazily extended first name word starting at p: the shortest
extension whose continuation (greedy optional second word, else the
boundary) succeeds. -/
def firstWordMatch (cs : List Char) (p : Nat) : Option Nat :=
  if decide (p < cs.length) && isAsciiLower (cs.getD p ' ') then
    (List.range (nameClsRun cs (p + 1) + 1)).findSome? (fun k =>
      let q := p + 1 + k
      match secondWordEnd cs q with
      | some e2 => some e2
      | none => if boundaryAt cs q then some q else none)
  else none

/-- Overall doctor-name match \bdr\.?\s+(...)\b anchored at one position of
the lowered text; returns the captured group characters. -/
def drDocAt (cs : List Char) (i : Nat) : Option (List Char) :=
  if (decide (i = 0) || !(isWordC (cs.getD (i - 1) ' '))) && occursAt "dr".data cs i then
    let afterDot := match cs.drop (i + 2) with
                    | '.' :: _ => i + 3
                    | _ => i + 2
    let w := wsRun cs afterDot
    (descFrom w).findSome? (fun n =>
      (firstWordMatch cs (afterDot + n)).map
        (fun e => (cs.drop (afterDot + n)).take (e - (afterDot + n))))
  else none

/-- re.search of a whole word (letters only) with boundaries on both sides. -/
def wordSearch (w : String) (cs : List Char) : Bool :=
  (List.range (cs.length + 1)).any (fun i =>
    (decide (i = 0) || !(isWordC (cs.getD (i - 1) ' '))) && occursAt w.data cs i &&
    (decide (i + w.data.length = cs.length) || !(isWordC (cs.getD (i + w.data.length) ' '))))

/-- agent.extract_doctor_and_period: title-cased doctor name built from the
captured group of the lazy pattern, and the first of morning, afternoon,
evening found as a whole word. -/
def extractDoctorAndPeriod (text : String) : Option String × Option String :=
  let cs := (lowerS text).data
  let doc := (List.range (cs.length + 1)).findSome? (fun i => drDocAt cs i)
  let docName := doc.map (fun g =>
    "Dr. " ++ sepJoin " " ((pySplitWs (pyStrip (String.mk g))).map pyCapitalize))
  let period := if wordSearch "morning" cs then some "morning"
                else if wordSearch "afternoon" cs then some "afternoon"
                else if wordSearch "evening" cs then some "evening"
                else none
  (docName, period)

/-- agent.handle_date_resolution_chaining: extract the trailing date token
of the sentinel text, and when a doctor name is mentioned make one
availability follow-up call whose formatted text replaces the sentinel;
an exception leaves the sentinel standing. -/
def handleDateResolutionChaining (call : ToolCall) (responseText message : String) :
    String × Trace :=
  let resolvedDate := pyStripChars ((pySplitWs (pyStrip responseText)).getLastD "") ['.', ' ']
  let dp := extractDoctorAndPeriod message
  match dp.1 with
  | none => (responseText, [])
  | some dn =>
    let args := Json.obj [("query", Json.obj [("doctor_name", Json.str dn),
      ("date", Json.str resolvedDate),
      ("part_of_day", match dp.2 with
                      | some t => Json.str t
                      | none => Json.null)])]
    match call (Json.str "check_doctor_availability") args with
    | Except.ok content =>
        (formatAvailability content, [(Json.str "check_doctor_availability", args)])
    | Except.error _ => (responseText, [(Json.str "check_doctor_availability", args)])

/-- agent.execute_fallback_tool: run the tool named by a JSON plan whose
action field designates a tool call, else report the fixed refusal line. -/
def executeFallbackTool (call : ToolCall) (plan : Json) : String × Trace :=
  let action := lowerS (pyStr (jgetD plan "action" (Json.str "")))
  if action = "tool" || action = "call_tool" || endsWithS action "_tool" then
    let tn := jor (jgetD plan "tool_name" Json.null) (jgetD plan "action" Json.null)
    let args := normalizeToolArguments tn (jgetD plan "args" (Json.obj []))
    match call tn args with
    | Except.ok content => (formatToolResponse tn content, [(tn, args)])
    | Except.error e =>
        ("Error executing fallback tool " ++ pyStr tn ++ ": " ++ e, [(tn, args)])
  else ("Unable to execute the requested tool.", [])

/-! Model of process_agent_request. -/

/-- Stages of process_agent_request before the fallback re-extraction:
the date rewrite (when the resolver tool is advertised), the completion
and dispatch, and the sentinel chaining; yields the rewritten message,
the response so far, and the trace so far. -/
def preFallbackStage (tools : List String) (env : Env) (call : ToolCall) (llm : Llm)
    (history : List Turn) (message : String) : String × String × Trace :=
  let r1 := if tools.contains "resolve_date_tool" then resolveRelativeDates call message
            else (message, [])
  let r2 := callLlmWithTools env call llm r1.1 history
  let r3 := if startsWithS (lowerS (pyStrip r2.1)) "date resolved to " then
              handleDateResolutionChaining call r2.1 r1.1
            else (r2.1, [])
  (r1.1, r3.1, r1.2 ++ r2.2 ++ r3.2)

/-- Result of one processed message: the response text, the backend trace,
and the updated session store. -/
structure AgentResult where
  text : String
  trace : Trace
  sessions : String → List Turn

/-- agent.process_agent_request: resolve dates, dispatch, chain, run the
fallback plan when the response text itself parses to a truthy JSON
object, and append the user and assistant turns to the session history. -/
def processAgentRequest (tools : List String) (env : Env) (call : ToolCall) (llm : Llm)
    (sessions : String → List Turn) (sessionId message : String) : AgentResult :=
  let history := sessions sessionId
  let pre := preFallbackStage tools env call llm history message
  let r4 := match extractToolPlan pre.2.1 with
            | some p => if jtruthy p then executeFallbackTool call p else (pre.2.1, [])
            | none => (pre.2.1, [])
  AgentResult.mk r4.1 (pre.2.2 ++ r4.2)
    (fun k => if k = sessionId then history ++ [("user", pre.1), ("assistant", r4.1)]
              else sessions k)

/-! Concrete oracles and clocks used by the verification scenarios. -/

/-- Backend oracle of the concrete scenarios: fixed responses per tool. -/
def scenarioCall : ToolCall := fun tn _ =>
  if jeqStr tn "resolve_date_tool" then Except.ok "\x7b\x22date\x22: \x222025-01-02\x22\x7d"
  else if jeqStr tn "cancel_appointments_by_date_tool" then
    Except.ok "\x7b\x22canceled\x22: 2, \x22for_date\x22: \x222025-09-01\x22\x7d"
  else if jeqStr tn "appointment_stats_tool" then
    Except.ok "\x7b\x22total_appointments\x22: 2, \x22completed\x22: 1, \x22canceled\x22: 0\x7d"
  else if jeqStr tn "register_patient_tool" then Except.ok "Patient registered successfully"
  else if jeqStr tn "book_appointment_tool" then
    Except.ok "\x7b\x22error\x22: \x22Patient not found\x22\x7d"
  else Except.error "no such tool"

/-- Clock of the concrete scenarios, with a configured credential. -/
def scenarioEnv : Env := Env.mk true "2025-01-01" "2025-01-02" "2024-12-31"

/-- Clock of the concrete scenarios, with no credential configured. -/
def scenarioEnvNoKey : Env := Env.mk false "2025-01-01" "2025-01-02" "2024-12-31"

/-- Completion oracle answering with free text and no tool plan. -/
def llmFreeText : Llm := fun _ _ => "hello"

/-- Completion oracle answering with a cancel-tool plan. -/
def llmCancelPlan : Llm := fun _ _ =>
  "\x7b\x22action\x22: \x22tool\x22, \x22tool_name\x22: \x22cancel_appointments_by_date_tool\x22, \x22args\x22: \x7b\x22data\x22: \x7b\x22for_date\x22: \x222025-09-01\x22\x7d\x7d\x7d"

/-- Booking plan of the registration-retry scenario. -/
def scenarioBookPlan : Json :=
  Json.obj [("tool_name", Json.str "book_appointment_tool"),
    ("args", Json.obj [("data", Json.obj [("doctor_name", Json.str "Dr. Ahuja"),
      ("patient_email", Json.str "jane.doe77@mail.com"),
      ("start_at", Json.str "2025-09-01T09:00:00"),
      ("end_at", Json.str "2025-09-01T09:30:00")])])]

/-- Slot list of the availability formatting scenario (eight slots). -/
def availSlotsEx : List Json :=
  [Json.str "2025-08-16T09:00:00+00:00-2025-08-16T09:30:00+00:00", Json.str "s2",
   Json.str "s3", Json.str "s4", Json.str "s5", Json.str "s6", Json.str "s7", Json.str "s8"]

/-! Helper lemmas about the Python-dict operations and truthiness. -/

lemma jor_pos {a : Json} (h : jtruthy a = true) (b : Json) : jor a b = a := by
  simp [jor, h]

lemma jor_neg {a : Json} (h : jtruthy a = false) (b : Json) : jor a b = b := by
  simp [jor, h]

lemma jtruthy_str_empty : jtruthy (Json.str "") = false := by simp [jtruthy]

lemma jtruthy_null : jtruthy Json.null = false := rfl

lemma jhasKey_jdelKey (l : List (String × Json)) (k : String) :
    jhasKey (jdelKey l k) k = false := by
  induction l with
  | nil => simp [jdelKey, jhasKey]
  | cons x rest ih =>
      by_cases h : x.1 = k
      · simp [jdelKey, h] at ih ⊢; exact ih
      · simp [jdelKey, jhasKey, h] at ih ⊢; exact ih


lemma norm_resolve_str (s : String) :
    normalizeToolArguments (Json.str "resolve_date_tool") (Json.obj [("text", Json.str s)]) =
    Json.obj [("text", Json.str s)] := by
  by_cases h : s = ""
  · subst h; rfl
  · simp [normalizeToolArguments, jeqStr, jget, jor, jtruthy, jisStr, h]

lemma norm_resolve_shape (l : List (String × Json)) :
    ∃ s : String, normalizeToolArguments (Json.str "resolve_date_tool") (Json.obj l) =
      Json.obj [("text", Json.str s)] := by
  simp only [normalizeToolArguments, jeqStr]
  generalize jor (jor (jor (jget l "text") (jget l "date_string")) (jget l "date"))
    (jget l "query") = t0
  cases t0 with
  | str s =>
      by_cases hs : s = ""
      · subst hs; exact ⟨"", by simp⟩
      · exact ⟨s, by simp [jtruthy, jisStr, hs]⟩
  | null => exact ⟨"", by simp [jtruthy, jisStr]⟩
  | bool b => exact ⟨"", by simp [jisStr]⟩
  | num n => exact ⟨"", by simp [jisStr]⟩
  | arr xs => exact ⟨"", by simp [jisStr]⟩
  | obj xs => exact ⟨"", by simp [jisStr]⟩

lemma norm_resolve_idem (a : Json) :
    normalizeToolArguments (Json.str "resolve_date_tool")
      (normalizeToolArguments (Json.str "resolve_date_tool") a) =
    normalizeToolArguments (Json.str "resolve_date_tool") a := by
  cases a with
  | obj l =>
      obtain ⟨s, hs⟩ := norm_resolve_shape l
      rw [hs, norm_resolve_str]
  | null => exact norm_resolve_str _
  | bool b => exact norm_resolve_str _
  | num n => exact norm_resolve_str _
  | str s => exact norm_resolve_str _
  | arr xs => exact norm_resolve_str _

lemma norm_sql_str (s : String) :
    normalizeToolArguments (Json.str "sql_read_tool") (Json.obj [("sql", Json.str s)]) =
    Json.obj [("sql", Json.str s)] := by
  by_cases h : s = ""
  · subst h; rfl
  · simp [normalizeToolArguments, jeqStr, jget, jhasKey, jor, jtruthy, h]

lemma norm_sql_idem (a : Json) :
    normalizeToolArguments (Json.str "sql_read_tool")
      (normalizeToolArguments (Json.str "sql_read_tool") a) =
    normalizeToolArguments (Json.str "sql_read_tool") a := by
  cases a with
  | obj l =>
      simp only [normalizeToolArguments, jeqStr]
      generalize jget l "sql" = vs
      generalize jget l "query" = vq
      generalize jget l "params" = vp
      generalize jget l "row_limit" = vr
      by_cases hp : jhasKey l "params" <;> by_cases hr : jhasKey l "row_limit" <;>
        by_cases h1 : jtruthy vs <;> by_cases h2 : jtruthy vq <;>
        simp [hp, hr, h1, h2, jor_pos, jor_neg, jtruthy_str_empty, jtruthy_null,
          jget, jhasKey]
  | null => exact norm_sql_str _
  | bool b => exact norm_sql_str _
  | num n => exact norm_sql_str _
  | str s => exact norm_sql_str _
  | arr xs => exact norm_sql_str _

lemma norm_list_wrap (q : List (String × Json)) :
    normalizeToolArguments (Json.str "list_appointments_tool")
      (Json.obj [("query", Json.obj q)]) =
    Json.obj [("query", Json.obj q)] := by
  simp [normalizeToolArguments, jeqStr, jget]

lemma norm_list_idem (a : Json) :
    normalizeToolArguments (Json.str "list_appointments_tool")
      (normalizeToolArguments (Json.str "list_appointments_tool") a) =
    normalizeToolArguments (Json.str "list_appointments_tool") a := by
  cases a with
  | obj l =>
      have hshape : ∃ q, normalizeToolArguments (Json.str "list_appointments_tool")
          (Json.obj l) = Json.obj [("query", Json.obj q)] := by
        cases hq : jget l "query" with
        | obj q => exact ⟨q, by simp [normalizeToolArguments, jeqStr, hq]⟩
        | null => exact ⟨l, by simp [normalizeToolArguments, jeqStr, hq]⟩
        | bool b => exact ⟨l, by simp [normalizeToolArguments, jeqStr, hq]⟩
        | num n => exact ⟨l, by simp [normalizeToolArguments, jeqStr, hq]⟩
        | str s => exact ⟨l, by simp [normalizeToolArguments, jeqStr, hq]⟩
        | arr xs => exact ⟨l, by simp [normalizeToolArguments, jeqStr, hq]⟩
      obtain ⟨q, hq2⟩ := hshape
      rw [hq2, norm_list_wrap]
  | null => exact norm_list_wrap _
  | bool b => exact norm_list_wrap _
  | num n => exact norm_list_wrap _
  | str s => exact norm_list_wrap _
  | arr xs => exact norm_list_wrap _

lemma norm_avail_wrap (q : List (String × Json)) :
    normalizeToolArguments (Json.str "check_doctor_availability")
      (Json.obj [("query", Json.obj q)]) =
    Json.obj [("query", Json.obj q)] := by
  simp [normalizeToolArguments, jeqStr, jget]

lemma norm_avail_idem (a : Json) :
    normalizeToolArguments (Json.str "check_doctor_availability")
      (normalizeToolArguments (Json.str "check_doctor_availability") a) =
    normalizeToolArguments (Json.str "check_doctor_availability") a := by
  cases a with
  | obj l =>
      have hshape : ∃ q, normalizeToolArguments (Json.str "check_doctor_availability")
          (Json.obj l) = Json.obj [("query", Json.obj q)] := by
        cases hq : jget l "query" with
        | obj q => exact ⟨q, by simp [normalizeToolArguments, jeqStr, hq]⟩
        | null => exact ⟨l, by simp [normalizeToolArguments, jeqStr, hq]⟩
        | bool b => exact ⟨l, by simp [normalizeToolArguments, jeqStr, hq]⟩
        | num n => exact ⟨l, by simp [normalizeToolArguments, jeqStr, hq]⟩
        | str s => exact ⟨l, by simp [normalizeToolArguments, jeqStr, hq]⟩
        | arr xs => exact ⟨l, by simp [normalizeToolArguments, jeqStr, hq]⟩
      obtain ⟨q, hq2⟩ := hshape
      rw [hq2, norm_avail_wrap]
  | null => exact norm_avail_wrap _
  | bool b => exact norm_avail_wrap _
  | num n => exact norm_avail_wrap _
  | str s => exact norm_avail_wrap _
  | arr xs => exact norm_avail_wrap _

lemma norm_stats_wrap (q : List (String × Json))
    (hsafe : (jhasKey q "date" && !(jhasKey q "for_date")) = false) :
    normalizeToolArguments (Json.str "appointment_stats_tool")
      (Json.obj [("query", Json.obj q)]) =
    Json.obj [("query", Json.obj q)] := by
  simp [normalizeToolArguments, jeqStr, jget, hsafe]

lemma norm_stats_idem (a : Json) :
    normalizeToolArguments (Json.str "appointment_stats_tool")
      (normalizeToolArguments (Json.str "appointment_stats_tool") a) =
    normalizeToolArguments (Json.str "appointment_stats_tool") a := by
  cases a with
  | obj l =>
      have hshape : ∃ q, normalizeToolArguments (Json.str "appointment_stats_tool")
          (Json.obj l) = Json.obj [("query", Json.obj q)] ∧
          (jhasKey q "date" && !(jhasKey q "for_date")) = false := by
        have hcore : ∀ p : List (String × Json),
            ∃ q, (if (jhasKey p "date" && !(jhasKey p "for_date")) = true then
                jdelKey (jsetKey p "for_date" (jget p "date")) "date" else p) = q ∧
              (jhasKey q "date" && !(jhasKey q "for_date")) = false := by
          intro p
          by_cases hc : (jhasKey p "date" && !(jhasKey p "for_date")) = true
          · exact ⟨_, by rw [if_pos hc], by simp [jhasKey_jdelKey]⟩
          · exact ⟨p, by rw [if_neg hc], by simpa using hc⟩
        cases hq : jget l "query" with
        | obj q =>
            obtain ⟨q2, hq2, hs2⟩ := hcore q
            exact ⟨q2, by simp [normalizeToolArguments, jeqStr, hq, ← hq2], hs2⟩
        | null =>
            obtain ⟨q2, hq2, hs2⟩ := hcore l
            exact ⟨q2, by simp [normalizeToolArguments, jeqStr, hq, ← hq2], hs2⟩
        | bool b =>
            obtain ⟨q2, hq2, hs2⟩ := hcore l
            exact ⟨q2, by simp [normalizeToolArguments, jeqStr, hq, ← hq2], hs2⟩
        | num n =>
            obtain ⟨q2, hq2, hs2⟩ := hcore l
            exact ⟨q2, by simp [normalizeToolArguments, jeqStr, hq, ← hq2], hs2⟩
        | str s =>
            obtain ⟨q2, hq2, hs2⟩ := hcore l
            exact ⟨q2, by simp [normalizeToolArguments, jeqStr, hq, ← hq2], hs2⟩
        | arr xs =>
            obtain ⟨q2, hq2, hs2⟩ := hcore l
            exact ⟨q2, by simp [normalizeToolArguments, jeqStr, hq, ← hq2], hs2⟩
      obtain ⟨q, hq2, hs⟩ := hshape
      rw [hq2, norm_stats_wrap q hs]
  | null => exact norm_stats_wrap _ (by simp [jhasKey])
  | bool b => exact norm_stats_wrap _ (by simp [jhasKey])
  | num n => exact norm_stats_wrap _ (by simp [jhasKey])
  | str s => exact norm_stats_wrap _ (by simp [jhasKey])
  | arr xs => exact norm_stats_wrap _ (by simp [jhasKey])

lemma norm_patients_wrap (q : List (String × Json))
    (hsafe : (jhasKey q "condition_like" && !(jhasKey q "reason_like")) = false) :
    normalizeToolArguments (Json.str "patients_by_reason_tool")
      (Json.obj [("query", Json.obj q)]) =
    Json.obj [("query", Json.obj q)] := by
  simp [normalizeToolArguments, jeqStr, jget, hsafe]

lemma norm_patients_idem (a : Json) :
    normalizeToolArguments (Json.str "patients_by_reason_tool")
      (normalizeToolArguments (Json.str "patients_by_reason_tool") a) =
    normalizeToolArguments (Json.str "patients_by_reason_tool") a := by
  cases a with
  | obj l =>
      have hshape : ∃ q, normalizeToolArguments (Json.str "patients_by_reason_tool")
          (Json.obj l) = Json.obj [("query", Json.obj q)] ∧
          (jhasKey q "condition_like" && !(jhasKey q "reason_like")) = false := by
        have hcore : ∀ p : List (String × Json),
            ∃ q, (if (jhasKey p "condition_like" && !(jhasKey p "reason_like")) = true then
                jdelKey (jsetKey p "reason_like" (jget p "condition_like")) "condition_like"
              else p) = q ∧
              (jhasKey q "condition_like" && !(jhasKey q "reason_like")) = false := by
          intro p
          by_cases hc : (jhasKey p "condition_like" && !(jhasKey p "reason_like")) = true
          · exact ⟨_, by rw [if_pos hc], by simp [jhasKey_jdelKey]⟩
          · exact ⟨p, by rw [if_neg hc], by simpa using hc⟩
        cases hq : jget l "query" with
        | obj q =>
            obtain ⟨q2, hq2, hs2⟩ := hcore q
            exact ⟨q2, by simp [normalizeToolArguments, jeqStr, hq, ← hq2], hs2⟩
        | null =>
            obtain ⟨q2, hq2, hs2⟩ := hcore l
            exact ⟨q2, by simp [normalizeToolArguments, jeqStr, hq, ← hq2], hs2⟩
        | bool b =>
            obtain ⟨q2, hq2, hs2⟩ := hcore l
            exact ⟨q2, by simp [normalizeToolArguments, jeqStr, hq, ← hq2], hs2⟩
        | num n =>
            obtain ⟨q2, hq2, hs2⟩ := hcore l
            exact ⟨q2, by simp [normalizeToolArguments, jeqStr, hq, ← hq2], hs2⟩
        | str s =>
            obtain ⟨q2, hq2, hs2⟩ := hcore l
            exact ⟨q2, by simp [normalizeToolArguments, jeqStr, hq, ← hq2], hs2⟩
        | arr xs =>
            obtain ⟨q2, hq2, hs2⟩ := hcore l
            exact ⟨q2, by simp [normalizeToolArguments, jeqStr, hq, ← hq2], hs2⟩
      obtain ⟨q, hq2, hs⟩ := hshape
      rw [hq2, norm_patients_wrap q hs]
  | null => exact norm_patients_wrap _ (by simp [jhasKey])
  | bool b => exact norm_patients_wrap _ (by simp [jhasKey])
  | num n => exact norm_patients_wrap _ (by simp [jhasKey])
  | str s => exact norm_patients_wrap _ (by simp [jhasKey])
  | arr xs => exact norm_patients_wrap _ (by simp [jhasKey])

lemma norm_data_idem (t : String)
    (ht : t = "book_appointment_tool" ∨ t = "register_patient_tool" ∨
      t = "cancel_appointments_by_date_tool") (a : Json) :
    normalizeToolArguments (Json.str t) (normalizeToolArguments (Json.str t) a) =
    normalizeToolArguments (Json.str t) a := by
  rcases ht with rfl | rfl | rfl <;>
    (cases a with
     | obj l =>
         by_cases hk : jhasKey l "data"
         · cases hg : jget l "data" with
           | obj d => simp [normalizeToolArguments, jeqStr, hk, hg, jisObj]
           | null => simp [normalizeToolArguments, jeqStr, hk, hg, jisObj, jget, jhasKey]
           | bool b => simp [normalizeToolArguments, jeqStr, hk, hg, jisObj, jget, jhasKey]
           | num n => simp [normalizeToolArguments, jeqStr, hk, hg, jisObj, jget, jhasKey]
           | str s => simp [normalizeToolArguments, jeqStr, hk, hg, jisObj, jget, jhasKey]
           | arr xs => simp [normalizeToolArguments, jeqStr, hk, hg, jisObj, jget, jhasKey]
         · simp [normalizeToolArguments, jeqStr, hk, jget, jhasKey, jisObj]
     | null => simp [normalizeToolArguments, jeqStr, jget, jhasKey, jisObj]
     | bool b => simp [normalizeToolArguments, jeqStr, jget, jhasKey, jisObj]
     | num n => simp [normalizeToolArguments, jeqStr, jget, jhasKey, jisObj]
     | str s => simp [normalizeToolArguments, jeqStr, jget, jhasKey, jisObj]
     | arr xs => simp [normalizeToolArguments, jeqStr, jget, jhasKey, jisObj])

lemma norm_other_idem (t : String)
    (h1 : t ≠ "resolve_date_tool") (h2 : t ≠ "sql_read_tool")
    (h3 : t ≠ "list_appointments_tool") (h4 : t ≠ "patients_by_reason_tool")
    (h5 : t ≠ "appointment_stats_tool") (h6 : t ≠ "check_doctor_availability")
    (h7 : t ≠ "book_appointment_tool") (h8 : t ≠ "register_patient_tool")
    (h9 : t ≠ "cancel_appointments_by_date_tool") (a : Json) :
    normalizeToolArguments (Json.str t) (normalizeToolArguments (Json.str t) a) =
    normalizeToolArguments (Json.str t) a := by
  cases a with
  | obj l => simp [normalizeToolArguments, jeqStr, h1, h2, h3, h4, h5, h6, h7, h8, h9]
  | null => simp [normalizeToolArguments, jeqStr, h1, h2, h3, h4, h5, h6, h7, h8, h9]
  | bool b => simp [normalizeToolArguments, jeqStr, h1, h2, h3, h4, h5, h6, h7, h8, h9]
  | num n => simp [normalizeToolArguments, jeqStr, h1, h2, h3, h4, h5, h6, h7, h8, h9]
  | str s => simp [normalizeToolArguments, jeqStr, h1, h2, h3, h4, h5, h6, h7, h8, h9]
  | arr xs => simp [normalizeToolArguments, jeqStr, h1, h2, h3, h4, h5, h6, h7, h8, h9]

/-- Claim C4: argument normalization is idempotent for every fixed tool
name and every argument value; re-normalizing an already canonical map
(including the remapped shapes of appointment_stats_tool and
patients_by_reason_tool) returns it unchanged. -/
theorem claim4_normalize_idempotent (t : String) (a : Json) :
    normalizeToolArguments (Json.str t) (normalizeToolArguments (Json.str t) a) =
    normalizeToolArguments (Json.str t) a := by
  by_cases e1 : t = "resolve_date_tool"
  · subst e1; exact norm_resolve_idem a
  by_cases e2 : t = "sql_read_tool"
  · subst e2; exact norm_sql_idem a
  by_cases e3 : t = "list_appointments_tool"
  · subst e3; exact norm_list_idem a
  by_cases e4 : t = "patients_by_reason_tool"
  · subst e4; exact norm_patients_idem a
  by_cases e5 : t = "appointment_stats_tool"
  · subst e5; exact norm_stats_idem a
  by_cases e6 : t = "check_doctor_availability"
  · subst e6; exact norm_avail_idem a
  by_cases e7 : t = "book_appointment_tool"
  · subst e7; exact norm_data_idem _ (Or.inl rfl) a
  by_cases e8 : t = "register_patient_tool"
  · subst e8; exact norm_data_idem _ (Or.inr (Or.inl rfl)) a
  by_cases e9 : t = "cancel_appointments_by_date_tool"
  · subst e9; exact norm_data_idem _ (Or.inr (Or.inr rfl)) a
  exact norm_other_idem t e1 e2 e3 e4 e5 e6 e7 e8 e9 a


/-- Claim C3: normalize_tool_arguments is total and always yields a dict:
for every tool-name string and every argument value of any shape, the
result is a Json object. -/
theorem claim3_normalize_total (t : String) (a : Json) :
    jisObj (normalizeToolArguments (Json.str t) a) = true := by
  cases a <;> simp only [normalizeToolArguments] <;> (repeat' split) <;> simp [jisObj]


/-- Claim C1: for every message matching a data-query pattern, when the
extracted plan is missing or lacks a tool_name the engine runs exactly
one forced backend call, chosen deterministically by the documented
precedence (count, list, patient search, availability, Slack summary,
stats fallback), and the returned text is derived from that call result
or its error, never from the model free text (the right side never
mentions the model output). -/
theorem claim1_forced_tool_usage (env : Env) (call : ToolCall) (llmResponse message : String)
    (hdq : isDataQuery message = true)
    (hplan : planHasNoTool (extractToolPlan llmResponse) = true) :
    processLLMResponse env call llmResponse message = forceToolUsage env call message ∧
    (forceToolUsage env call message).2 =
      [(Json.str (forcedSelect env message).1, (forcedSelect env message).2)] ∧
    (∀ c, call (Json.str (forcedSelect env message).1) (forcedSelect env message).2 =
        Except.ok c →
      (forceToolUsage env call message).1 =
        formatToolResponse (Json.str (forcedSelect env message).1) c) ∧
    (∀ e, call (Json.str (forcedSelect env message).1) (forcedSelect env message).2 =
        Except.error e →
      (forceToolUsage env call message).1 =
        "Error calling " ++ (forcedSelect env message).1 ++ ": " ++ e) := by
  refine ⟨?_, ?_, ?_, ?_⟩
  · simp [processLLMResponse, hdq, hplan]
  · cases h : call (Json.str (forcedSelect env message).1) (forcedSelect env message).2 <;>
      simp [forceToolUsage, h]
  · intro c hc
    simp [forceToolUsage, hc]
  · intro e he
    simp [forceToolUsage, he]

/-- Witness for claim C1 at a concrete count query with a free-text model
reply: the forced stats call is the single backend call and the response
is its formatted result. -/
theorem claim1_forced_tool_usage_witness :
    processLLMResponse scenarioEnv scenarioCall "I cannot call tools"
        "how many appointments today" =
      forceToolUsage scenarioEnv scenarioCall "how many appointments today" ∧
    (forceToolUsage scenarioEnv scenarioCall "how many appointments today").2 =
      [(Json.str "appointment_stats_tool",
        Json.obj [("query", Json.obj [("for_date", Json.str "2025-01-01")])])] ∧
    (forceToolUsage scenarioEnv scenarioCall "how many appointments today").1 =
      "Total appointments: 2; Completed: 1; Canceled: 0" := by
  have h := claim1_forced_tool_usage scenarioEnv scenarioCall "I cannot call tools"
    "how many appointments today" (by decide) (by decide)
  refine ⟨h.1, ?_, ?_⟩
  · rw [h.2.1]; exact rfl
  · have h3 := h.2.2.1
      "\x7b\x22total_appointments\x22: 2, \x22completed\x22: 1, \x22canceled\x22: 0\x7d" rfl
    rw [h3]; exact rfl


set_option maxRecDepth 200000

/-- Claim C2 (amended): per processed message the session store of the
session id grows by exactly two turns, one user turn and one assistant
turn, and intermediate chained exchanges are not separately persisted;
the user turn carries the date-rewritten message (the source appends the
rebound message variable, not the original inbound text). -/
theorem claim2_history_two_turns (tools : List String) (env : Env) (call : ToolCall)
    (llm : Llm) (sessions : String → List Turn) (sessionId message : String) :
    (processAgentRequest tools env call llm sessions sessionId message).sessions sessionId =
      sessions sessionId ++
        [("user", (if tools.contains "resolve_date_tool" then
            (resolveRelativeDates call message).1 else message)),
         ("assistant", (processAgentRequest tools env call llm sessions sessionId message).text)]
    := by
  by_cases hc : "resolve_date_tool" ∈ tools <;>
    simp [processAgentRequest, preFallbackStage, hc]

/-- Counterexample to claim C2 as stated: after a successful relative-date
rewrite the stored user turn is the rewritten message, not the original
pre-rewrite inbound message. -/
theorem claim2_history_counterexample :
    (processAgentRequest ["resolve_date_tool"] scenarioEnv scenarioCall llmFreeText
        (fun _ => []) "s" "book tomorrow").sessions "s" =
      [("user", "book 2025-01-02"), ("assistant", "hello")] ∧
    "book 2025-01-02" ≠ "book tomorrow" := by
  exact ⟨rfl, by decide⟩

/-- Trace shape of the date-resolution stage: no call, or exactly one call
of the resolution tool. -/
lemma resolve_trace_shape (call : ToolCall) (msg : String) :
    (resolveRelativeDates call msg).2 = [] ∨
    ∃ args, (resolveRelativeDates call msg).2 = [(Json.str "resolve_date_tool", args)] := by
  unfold resolveRelativeDates
  cases selectDateKeyword (lowerS msg) with
  | none => left; rfl
  | some kw =>
      right
      refine ⟨Json.obj [("text", Json.str kw)], ?_⟩
      cases h : call (Json.str "resolve_date_tool") (Json.obj [("text", Json.str kw)]) with
      | error e => simp [h]
      | ok content =>
          simp only [h]
          (repeat' split) <;> rfl

/-- Claim C6 (amended): with no model credential configured, processing
returns the fixed apology and makes no backend call other than at most
one date-resolution call, which the source issues before the credential
check. -/
theorem claim6_no_credential (tools : List String) (env : Env) (call : ToolCall)
    (llm : Llm) (sessions : String → List Turn) (sessionId message : String)
    (hkey : env.hasApiKey = false) :
    (processAgentRequest tools env call llm sessions sessionId message).text =
      "Sorry, LLM service is not configured." ∧
    ((processAgentRequest tools env call llm sessions sessionId message).trace = [] ∨
      ∃ args, (processAgentRequest tools env call llm sessions sessionId message).trace =
        [(Json.str "resolve_date_tool", args)]) := by
  have hsent : startsWithS (lowerS (pyStrip "Sorry, LLM service is not configured."))
      "date resolved to " = false := by decide
  have hfb : extractToolPlan "Sorry, LLM service is not configured." = none := by rfl
  constructor
  · simp [processAgentRequest, preFallbackStage, callLlmWithTools, hkey, hsent, hfb]
  · have := resolve_trace_shape call message
    by_cases hc : "resolve_date_tool" ∈ tools <;>
      simp [processAgentRequest, preFallbackStage, callLlmWithTools, hkey, hsent, hfb, hc]
    exact this

/-- Witness for claim C6 at a concrete credential-absent run. -/
theorem claim6_witness :
    scenarioEnvNoKey.hasApiKey = false ∧
    (processAgentRequest [] scenarioEnvNoKey scenarioCall llmFreeText
        (fun _ => []) "s" "hello").text = "Sorry, LLM service is not configured." := by
  exact ⟨rfl, (claim6_no_credential [] scenarioEnvNoKey scenarioCall llmFreeText
    (fun _ => []) "s" "hello" rfl).1⟩

/-- Counterexample to claim C6 as stated: in a credential-absent run whose
message carries a date keyword and whose backend advertises the resolver,
one date-resolution tool call does occur before the short-circuit. -/
theorem claim6_counterexample :
    scenarioEnvNoKey.hasApiKey = false ∧
    (processAgentRequest ["resolve_date_tool"] scenarioEnvNoKey scenarioCall llmFreeText
        (fun _ => []) "s" "cancel today").trace =
      [(Json.str "resolve_date_tool", Json.obj [("text", Json.str "today")])] ∧
    (processAgentRequest ["resolve_date_tool"] scenarioEnvNoKey scenarioCall llmFreeText
        (fun _ => []) "s" "cancel today").trace ≠ [] := by
  refine ⟨rfl, rfl, ?_⟩
  have h2 : (processAgentRequest ["resolve_date_tool"] scenarioEnvNoKey scenarioCall llmFreeText
      (fun _ => []) "s" "cancel today").trace =
    [(Json.str "resolve_date_tool", Json.obj [("text", Json.str "today")])] := rfl
  rw [h2]
  simp

/-- Claim C10 (implicit): when the pre-fallback response text parses to a
truthy JSON object whose action field, lowered, is neither tool nor
call_tool and does not end in _tool, the user-visible response is the
fixed refusal line instead of the tool JSON content. -/
theorem claim10_fallback_swallow (tools : List String) (env : Env) (call : ToolCall)
    (llm : Llm) (sessions : String → List Turn) (sessionId message : String) (p : Json)
    (hfb : extractToolPlan
        (preFallbackStage tools env call llm (sessions sessionId) message).2.1 = some p)
    (htr : jtruthy p = true)
    (h1 : lowerS (pyStr (jgetD p "action" (Json.str ""))) ≠ "tool")
    (h2 : lowerS (pyStr (jgetD p "action" (Json.str ""))) ≠ "call_tool")
    (h3 : endsWithS (lowerS (pyStr (jgetD p "action" (Json.str "")))) "_tool" = false) :
    (processAgentRequest tools env call llm sessions sessionId message).text =
      "Unable to execute the requested tool." := by
  simp [processAgentRequest, hfb, htr, executeFallbackTool, h1, h2, h3]

/-- Witness for claim C10: a cancel-tool plan is executed, its raw JSON
result re-parses in the fallback stage, the action field is missing, and
the fixed refusal line replaces the tool output. -/
theorem claim10_witness :
    (processAgentRequest [] scenarioEnv scenarioCall llmCancelPlan
        (fun _ => []) "s" "cancel my stuff please").text =
      "Unable to execute the requested tool." :=
  claim10_fallback_swallow [] scenarioEnv scenarioCall llmCancelPlan (fun _ => [])
    "s" "cancel my stuff please"
    (Json.obj [("canceled", Json.num 2), ("for_date", Json.str "2025-09-01")])
    rfl (by decide) (by decide) (by decide) (by decide)


/-- Claim C8: for an availability result carrying n slots the formatted
text lists exactly min(n, 6) slot entries, appends the remaining-slots
line exactly when n exceeds 6 (naming n minus 6), ends with the
clarifying question, and for n = 0 is the fixed no-slots-in-the-next-3-
weeks message. -/
theorem claim8_availability_format (content : String) (d : List (String × Json))
    (dname : String) (slots : List Json)
    (hparse : jparse content = some (Json.obj d))
    (hdock : jhasKey d "doctor_name" = true)
    (hdocv : jget d "doctor_name" = Json.str dname)
    (hslk : jhasKey d "available_slots" = true)
    (hslv : jget d "available_slots" = Json.arr slots) :
    formatAvailability content =
      (if slots.isEmpty then
        "No available slots found for " ++ dname ++ " in the next 3 weeks."
       else
        dname ++ "\x27s next available slots:\n" ++
          sepJoin "\n" ((slots.take 6).map slotLine) ++
          (if 6 < slots.length then "\n…and " ++ toString (slots.length - 6) ++ " more"
           else "") ++
          "\nWhich time works for you?") ∧
    ((slots.take 6).map slotLine).length = min 6 slots.length := by
  constructor
  · cases slots with
    | nil => simp [formatAvailability, hparse, hdock, hdocv, hslk, hslv, jtruthy, pyStr]
    | cons s rest =>
        simp only [formatAvailability, hparse, hdock, hdocv, hslk, hslv]
        by_cases h6 : 6 < rest.length + 1 <;>
          simp [jtruthy, pyStr, availBody, h6, String.append_assoc]
  · simp [List.length_take]

/-- Witness for claim C8 at a result with eight slots: six entries, the
two-more line, and the closing question. -/
theorem claim8_witness :
    formatAvailability
        "\x7b\x22doctor_name\x22: \x22Dr. A\x22, \x22available_slots\x22: [\x222025-08-16T09:00:00+00:00-2025-08-16T09:30:00+00:00\x22, \x22s2\x22, \x22s3\x22, \x22s4\x22, \x22s5\x22, \x22s6\x22, \x22s7\x22, \x22s8\x22]\x7d" =
      "Dr. A\x27s next available slots:\n- 2025-08-16 09:00–09:30\n- s2\n- s3\n- s4\n- s5\n- s6\n…and 2 more\nWhich time works for you?" ∧
    ((availSlotsEx.take 6).map slotLine).length = min 6 availSlotsEx.length := by
  have h := claim8_availability_format
    "\x7b\x22doctor_name\x22: \x22Dr. A\x22, \x22available_slots\x22: [\x222025-08-16T09:00:00+00:00-2025-08-16T09:30:00+00:00\x22, \x22s2\x22, \x22s3\x22, \x22s4\x22, \x22s5\x22, \x22s6\x22, \x22s7\x22, \x22s8\x22]\x7d"
    [("doctor_name", Json.str "Dr. A"), ("available_slots", Json.arr availSlotsEx)]
    "Dr. A" availSlotsEx rfl rfl rfl rfl rfl
  refine ⟨?_, h.2⟩
  rw [h.1]
  exact rfl

/-- Claim C9: a booking call whose formatted result contains Patient not
found and whose arguments carry a non-empty patient email triggers
exactly one registration (name derived from the email local part,
condition defaulting to general consultation) and at most one booking
retry, exactly one when the registration result carries a success
keyword; otherwise the registration failure text is returned with no
retry. -/
theorem claim9_booking_retry (call : ToolCall) (plan : Json)
    (data : List (String × Json)) (email content : String)
    (htool : jgetD plan "tool_name" Json.null = Json.str "book_appointment_tool")
    (hdata : jgetD (normalizeToolArguments (Json.str "book_appointment_tool")
        (jgetD plan "args" (Json.obj []))) "data" (Json.obj []) = Json.obj data)
    (hemail : jgetD (Json.obj data) "patient_email" (Json.str "") = Json.str email)
    (hne : email ≠ "")
    (hbook : call (Json.str "book_appointment_tool")
        (normalizeToolArguments (Json.str "book_appointment_tool")
          (jgetD plan "args" (Json.obj []))) = Except.ok content)
    (hnf : containsS (formatToolResponse (Json.str "book_appointment_tool") content)
        "Patient not found" = true) :
    ((executeToolPlan call plan).2.countP
        (fun c => jeqStr c.1 "register_patient_tool") = 1) ∧
    ((executeToolPlan call plan).2.countP
        (fun c => jeqStr c.1 "book_appointment_tool") ≤ 2) ∧
    (∀ regContent, call (Json.str "register_patient_tool")
        (Json.obj [("data", Json.obj
          [("name", Json.str (derivedPatientName email)), ("email", Json.str email),
           ("primary_condition",
             jgetD (Json.obj data) "description" (Json.str "general consultation"))])]) =
          Except.ok regContent →
      (["successfully", "registered", "created", "added"].any
          (fun kw => containsS (lowerS regContent) kw) = true →
        (executeToolPlan call plan).2 =
          [(Json.str "book_appointment_tool",
            normalizeToolArguments (Json.str "book_appointment_tool")
              (jgetD plan "args" (Json.obj []))),
           (Json.str "register_patient_tool",
            Json.obj [("data", Json.obj
              [("name", Json.str (derivedPatientName email)), ("email", Json.str email),
               ("primary_condition",
                 jgetD (Json.obj data) "description" (Json.str "general consultation"))])]),
           (Json.str "book_appointment_tool",
            normalizeToolArguments (Json.str "book_appointment_tool")
              (jgetD plan "args" (Json.obj [])))] ∧
        (executeToolPlan call plan).1 =
          "Welcome! I\x27ve registered you as a new patient (" ++
            derivedPatientName email ++ ") and " ++
            lowerS (formatToolResponse (Json.str "book_appointment_tool") content)) ∧
      (["successfully", "registered", "created", "added"].any
          (fun kw => containsS (lowerS regContent) kw) = false →
        (executeToolPlan call plan).2 =
          [(Json.str "book_appointment_tool",
            normalizeToolArguments (Json.str "book_appointment_tool")
              (jgetD plan "args" (Json.obj []))),
           (Json.str "register_patient_tool",
            Json.obj [("data", Json.obj
              [("name", Json.str (derivedPatientName email)), ("email", Json.str email),
               ("primary_condition",
                 jgetD (Json.obj data) "description" (Json.str "general consultation"))])])] ∧
        (executeToolPlan call plan).1 =
          "Unable to register new patient: " ++ regContent)) ∧
    (∀ e, call (Json.str "register_patient_tool")
        (Json.obj [("data", Json.obj
          [("name", Json.str (derivedPatientName email)), ("email", Json.str email),
           ("primary_condition",
             jgetD (Json.obj data) "description" (Json.str "general consultation"))])]) =
          Except.error e →
      (executeToolPlan call plan).2 =
        [(Json.str "book_appointment_tool",
          normalizeToolArguments (Json.str "book_appointment_tool")
            (jgetD plan "args" (Json.obj []))),
         (Json.str "register_patient_tool",
          Json.obj [("data", Json.obj
            [("name", Json.str (derivedPatientName email)), ("email", Json.str email),
             ("primary_condition",
               jgetD (Json.obj data) "description" (Json.str "general consultation"))])])] ∧
      (executeToolPlan call plan).1 =
        "Error during patient registration and booking: " ++ e) := by
  have hex : executeToolPlan call plan =
      (let h := handleRegistrationAndBooking call
        (normalizeToolArguments (Json.str "book_appointment_tool")
          (jgetD plan "args" (Json.obj [])));
       (h.1, (Json.str "book_appointment_tool",
         normalizeToolArguments (Json.str "book_appointment_tool")
           (jgetD plan "args" (Json.obj []))) :: h.2)) := by
    simp [executeToolPlan, htool, hbook, hnf, jeqStr]
  have hreg : handleRegistrationAndBooking call
      (normalizeToolArguments (Json.str "book_appointment_tool")
        (jgetD plan "args" (Json.obj []))) =
      (let regArgs := Json.obj [("data", Json.obj
          [("name", Json.str (derivedPatientName email)), ("email", Json.str email),
           ("primary_condition",
             jgetD (Json.obj data) "description" (Json.str "general consultation"))])];
       match call (Json.str "register_patient_tool") regArgs with
       | Except.error e =>
         ("Error during patient registration and booking: " ++ e,
          [(Json.str "register_patient_tool", regArgs)])
       | Except.ok regContent =>
         if ["successfully", "registered", "created", "added"].any
             (fun kw => containsS (lowerS regContent) kw) then
           match call (Json.str "book_appointment_tool")
               (normalizeToolArguments (Json.str "book_appointment_tool")
                 (jgetD plan "args" (Json.obj []))) with
           | Except.ok bc =>
             ("Welcome! I\x27ve registered you as a new patient (" ++
                derivedPatientName email ++ ") and " ++
                lowerS (formatToolResponse (Json.str "book_appointment_tool") bc),
              [(Json.str "register_patient_tool", regArgs),
               (Json.str "book_appointment_tool",
                 normalizeToolArguments (Json.str "book_appointment_tool")
                   (jgetD plan "args" (Json.obj [])))])
           | Except.error e2 =>
             ("Error during patient registration and booking: " ++ e2,
              [(Json.str "register_patient_tool", regArgs),
               (Json.str "book_appointment_tool",
                 normalizeToolArguments (Json.str "book_appointment_tool")
                   (jgetD plan "args" (Json.obj [])))])
         else
           ("Unable to register new patient: " ++ regContent,
            [(Json.str "register_patient_tool", regArgs)])) := by
    simp [handleRegistrationAndBooking, hdata, hemail, hne, jtruthy]
  rw [hex, hreg]
  cases hr : call (Json.str "register_patient_tool")
      (Json.obj [("data", Json.obj [("name", Json.str (derivedPatientName email)),
        ("email", Json.str email), ("primary_condition",
          jgetD (Json.obj data) "description" (Json.str "general consultation"))])]) with
  | error e => simp [hr, List.countP, List.countP.go, jeqStr]
  | ok rc =>
      by_cases hkw : (["successfully", "registered", "created", "added"].any
          (fun kw => containsS (lowerS rc) kw)) = true
      · simp [hr, hkw, hbook, List.countP, List.countP.go, jeqStr]
        intro h1 h2 h3
        simp [h1, h2, h3] at hkw
        exact hkw
      · simp [hr, hkw, List.countP, List.countP.go, jeqStr]
        simp at hkw
        exact hkw

/-- Witness for claim C9 at a concrete failed-then-retried booking. -/
theorem claim9_witness :
    (executeToolPlan scenarioCall scenarioBookPlan).2.countP
      (fun c => jeqStr c.1 "register_patient_tool") = 1 ∧
    (executeToolPlan scenarioCall scenarioBookPlan).2.countP
      (fun c => jeqStr c.1 "book_appointment_tool") ≤ 2 ∧
    (executeToolPlan scenarioCall scenarioBookPlan).2 =
      [(Json.str "book_appointment_tool",
        Json.obj [("data", Json.obj [("doctor_name", Json.str "Dr. Ahuja"),
          ("patient_email", Json.str "jane.doe77@mail.com"),
          ("start_at", Json.str "2025-09-01T09:00:00"),
          ("end_at", Json.str "2025-09-01T09:30:00")])]),
       (Json.str "register_patient_tool",
        Json.obj [("data", Json.obj [("name", Json.str "Jane Doe"),
          ("email", Json.str "jane.doe77@mail.com"),
          ("primary_condition", Json.str "general consultation")])]),
       (Json.str "book_appointment_tool",
        Json.obj [("data", Json.obj [("doctor_name", Json.str "Dr. Ahuja"),
          ("patient_email", Json.str "jane.doe77@mail.com"),
          ("start_at", Json.str "2025-09-01T09:00:00"),
          ("end_at", Json.str "2025-09-01T09:30:00")])])] := by
  have h := claim9_booking_retry scenarioCall scenarioBookPlan
    [("doctor_name", Json.str "Dr. Ahuja"),
     ("patient_email", Json.str "jane.doe77@mail.com"),
     ("start_at", Json.str "2025-09-01T09:00:00"),
     ("end_at", Json.str "2025-09-01T09:30:00")]
    "jane.doe77@mail.com" "\x7b\x22error\x22: \x22Patient not found\x22\x7d"
    rfl rfl rfl (by decide) rfl (by decide)
  refine ⟨h.1, h.2.1, ?_⟩
  have h3 := ((h.2.2.1 "Patient registered successfully" rfl).1 (by decide)).1
  rw [h3]
  exact rfl
/-- Lower-casing fixes the apostrophe. -/
lemma lowerC_apos : lowerC aposC = aposC := by decide

/-- A span matched by the possessive keyword pattern is, up to ASCII case,
the keyword or the keyword with an apostrophe-s suffix. -/
lemma kwMatchLen_span (kw : List Char) (pw : Bool) (s : List Char) (L : Nat)
    (h : kwMatchLen kw pw s = some L) :
    kw.length ≤ L ∧ L ≤ s.length ∧
    ((s.take L).map lowerC = kw ∨ (s.take L).map lowerC = kw ++ [aposC, 's']) := by
  unfold kwMatchLen at h
  by_cases hpw : pw
  · simp [hpw] at h
  · simp only [hpw, Bool.false_eq_true, if_false, beq_iff_eq, List.map_take] at h
    by_cases hpre : List.take kw.length (List.map lowerC s) = kw
    · simp only [hpre, if_true] at h
      have hkwle : kw.length ≤ s.length := by
        have := congrArg List.length hpre
        simp [List.length_take] at this
        omega
      have hbase : (s.take kw.length).map lowerC = kw := by
        rw [List.map_take]; exact hpre
      cases hd : s.drop kw.length with
      | nil =>
          rw [hd] at h
          have h2 : (if boundaryRight ([] : List Char) = true then some kw.length
              else none) = some L := h
          have hL : L = kw.length := by
            split at h2 <;> simp_all
          subst hL
          exact ⟨le_refl _, hkwle, Or.inl hbase⟩
      | cons a tl =>
          cases tl with
          | nil =>
              rw [hd] at h
              have h2 : (if boundaryRight [a] = true then some kw.length
                  else none) = some L := h
              have hL : L = kw.length := by
                split at h2 <;> simp_all
              subst hL
              exact ⟨le_refl _, hkwle, Or.inl hbase⟩
          | cons b rest2 =>
              rw [hd] at h
              have h2 : (if (decide (a = aposC) && decide (lowerC b = 's') &&
                    boundaryRight rest2) = true then
                  some (kw.length + 2)
                else if boundaryRight (a :: b :: rest2) = true then some kw.length
                else none) = some L := h
              have hslen : s.length = kw.length + (rest2.length + 2) := by
                have := congrArg List.length hd
                simp at this
                omega
              split at h2
              · next hcond =>
                  simp only [Bool.and_eq_true, decide_eq_true_eq] at hcond
                  have hL : L = kw.length + 2 := by simp_all
                  subst hL
                  refine ⟨by omega, by omega, Or.inr ?_⟩
                  have htk : s.take (kw.length + 2) =
                      s.take kw.length ++ (s.drop kw.length).take 2 := by
                    rw [List.take_add]
                  rw [htk, hd]
                  simp only [List.take, List.map_append, hbase, List.map_cons, List.map_nil]
                  rw [hcond.1.1, hcond.1.2, lowerC_apos]
              · split at h2
                · have hL : L = kw.length := by simp_all
                  subst hL
                  exact ⟨le_refl _, hkwle, Or.inl hbase⟩
                · simp at h2
    · simp [hpre] at h

/-- Decomposition of the scanning substitution: the input splits into
untouched chunks and matched spans, the output replaces exactly the
spans, and every span is the keyword up to case and possessive suffix. -/
lemma kwSub_decomp (kw repl : List Char) (hkw : kw ≠ []) :
    ∀ (fuel : Nat) (pw : Bool) (s : List Char), s.length ≤ fuel →
    ∃ (segs : List (List Char × List Char)) (tail : List Char),
      s = (segs.map (fun pr => pr.1 ++ pr.2)).flatten ++ tail ∧
      kwSubF fuel kw repl pw s = (segs.map (fun pr => pr.1 ++ repl)).flatten ++ tail ∧
      ∀ pr ∈ segs, (pr.2.map lowerC = kw ∨ pr.2.map lowerC = kw ++ [aposC, 's']) := by
  intro fuel
  induction fuel with
  | zero =>
      intro pw s hlen
      have hs : s = [] := List.length_eq_zero.mp (Nat.le_zero.mp hlen)
      subst hs
      exact ⟨[], [], by simp, by simp [kwSubF], by simp⟩
  | succ f ih =>
      intro pw s hlen
      cases s with
      | nil => exact ⟨[], [], by simp, by simp [kwSubF], by simp⟩
      | cons c rest =>
          cases hm : kwMatchLen kw pw (c :: rest) with
          | none =>
              obtain ⟨segs, tail, h1, h2, h3⟩ := ih (isWordC c) rest
                (by simp at hlen; omega)
              cases segs with
              | nil =>
                  simp at h1 h2
                  refine ⟨[], c :: tail, by simp [h1], ?_, by simp⟩
                  have hstep : kwSubF (f + 1) kw repl pw (c :: rest) =
                      c :: kwSubF f kw repl (isWordC c) rest := by
                    simp [kwSubF, hm]
                  simp [hstep, h2]
              | cons pr more =>
                  refine ⟨(c :: pr.1, pr.2) :: more, tail, ?_, ?_, ?_⟩
                  · simpa using congrArg (fun l => c :: l) h1
                  · have hstep : kwSubF (f + 1) kw repl pw (c :: rest) =
                        c :: kwSubF f kw repl (isWordC c) rest := by
                      simp [kwSubF, hm]
                    rw [hstep]
                    simpa using congrArg (fun l => c :: l) h2
                  · intro q hq
                    rcases List.mem_cons.mp hq with hq1 | hq2
                    · have := h3 pr (List.mem_cons_self pr more)
                      rw [hq1]
                      exact this
                    · exact h3 q (List.mem_cons_of_mem pr hq2)
          | some L =>
              have hspan := kwMatchLen_span kw pw _ L hm
              have hkwpos : 0 < kw.length := List.length_pos.mpr hkw
              have hL1 : 1 ≤ L := by omega
              obtain ⟨segs, tail, h1, h2, h3⟩ := ih true ((c :: rest).drop L)
                (by simp at hlen ⊢; omega)
              refine ⟨([], (c :: rest).take L) :: segs, tail, ?_, ?_, ?_⟩
              · conv_lhs => rw [← List.take_append_drop L (c :: rest)]
                rw [h1]
                simp
              · have hstep : kwSubF (f + 1) kw repl pw (c :: rest) =
                    repl ++ kwSubF f kw repl true ((c :: rest).drop L) := by
                  simp [kwSubF, hm]
                rw [hstep, h2]
                simp
              · intro q hq
                rcases List.mem_cons.mp hq with hq1 | hq2
                · rw [hq1]
                  exact hspan.2.2
                · exact h3 q hq2

/-- Claim C7 (amended): after a successful date resolution for the single
selected keyword, the rewrite replaces zero or more disjoint spans, each
being the keyword up to case with an optional possessive suffix, with the
resolved ISO date; every character outside the replaced spans is
preserved exactly (the source substitutes every occurrence, not at most
one). -/
theorem claim7_date_rewrite :
    (∀ (call : ToolCall) (msg kw content dt : String) (d : List (String × Json)),
      selectDateKeyword (lowerS msg) = some kw →
      call (Json.str "resolve_date_tool") (Json.obj [("text", Json.str kw)]) =
        Except.ok content →
      jparse content = some (Json.obj d) →
      jget d "date" = Json.str dt → dt ≠ "" →
      resolveRelativeDates call msg =
        (replaceRelativeDate msg dt kw,
         [(Json.str "resolve_date_tool", Json.obj [("text", Json.str kw)])])) ∧
    (∀ (text date keyword : String), keyword ≠ "" →
      ∃ (segs : List (List Char × List Char)) (tail : List Char),
        text.data = (segs.map (fun pr => pr.1 ++ pr.2)).flatten ++ tail ∧
        (replaceRelativeDate text date keyword).data =
          (segs.map (fun pr => pr.1 ++ date.data)).flatten ++ tail ∧
        ∀ pr ∈ segs, (pr.2.map lowerC = keyword.data ∨
          pr.2.map lowerC = keyword.data ++ [aposC, 's'])) := by
  constructor
  · intro call msg kw content dt d hsel hcall hparse hdt hne
    simp [resolveRelativeDates, hsel, hcall, hparse, hdt, hne]
  · intro text date keyword hne
    have hkw : keyword.data ≠ [] := by
      intro h
      apply hne
      cases keyword with
      | mk ldata => simp at h; simp [h]
    obtain ⟨segs, tail, h1, h2, h3⟩ :=
      kwSub_decomp keyword.data date.data hkw text.data.length false text.data (le_refl _)
    exact ⟨segs, tail, h1, by simpa [replaceRelativeDate] using h2, h3⟩

/-- Counterexample to claim C7 as stated: for the message today today both
keyword spans are replaced, and no single-span replacement (a prefix of
the original, the date, and a suffix of the original) yields the actual
output. -/
theorem claim7_counterexample :
    replaceRelativeDate "today today" "2025-09-01" "today" = "2025-09-01 2025-09-01" ∧
    ∀ i < 12, ∀ j < 12, ("2025-09-01 2025-09-01" : String) ≠
      String.mk ((("today today" : String).data.take i) ++ ("2025-09-01" : String).data ++
        (("today today" : String).data.drop j)) := by
  exact ⟨rfl, by decide⟩

/-- Witness for claim C7 at a concrete resolved rewrite. -/
theorem claim7_witness :
    resolveRelativeDates scenarioCall "book tomorrow" =
      ("book 2025-01-02",
       [(Json.str "resolve_date_tool", Json.obj [("text", Json.str "tomorrow")])]) ∧
    (∃ (segs : List (List Char × List Char)) (tail : List Char),
      ("meet today" : String).data = (segs.map (fun pr => pr.1 ++ pr.2)).flatten ++ tail ∧
      (replaceRelativeDate "meet today" "2025-01-02" "today").data =
        (segs.map (fun pr => pr.1 ++ ("2025-01-02" : String).data)).flatten ++ tail ∧
      ∀ pr ∈ segs, (pr.2.map lowerC = ("today" : String).data ∨
        pr.2.map lowerC = ("today" : String).data ++ [aposC, 's'])) := by
  constructor
  · have h := claim7_date_rewrite.1 scenarioCall "book tomorrow" "tomorrow"
      "\x7b\x22date\x22: \x222025-01-02\x22\x7d" "2025-01-02"
      [("date", Json.str "2025-01-02")] (by decide) rfl rfl rfl (by decide)
    rw [h]
    exact rfl
  · exact claim7_date_rewrite.2 "meet today" "2025-01-02" "today" (by decide)

/-! Supporting lemmas for the plan-extractor analysis: list strip and scan
decompositions, and head conditions under which the direct parse of the
whole text cannot yield an object. -/

lemma dropWhile_append_of_ex (p : Char → Bool) (a b : List Char)
    (h : ∃ c ∈ a, p c = false) :
    (a ++ b).dropWhile p = a.dropWhile p ++ b := by
  induction a with
  | nil => obtain ⟨c, hc, _⟩ := h; cases hc
  | cons x a ih =>
      by_cases hx : p x
      · obtain ⟨c, hc, hpc⟩ := h
        have hc2 : c ∈ a := by
          rcases List.mem_cons.mp hc with h1 | h1
          · rw [h1] at hpc; rw [hpc] at hx; cases hx
          · exact h1
        rw [List.cons_append, List.dropWhile_cons_of_pos hx,
          List.dropWhile_cons_of_pos hx]
        exact ih ⟨c, hc2, hpc⟩
      · rw [List.cons_append, List.dropWhile_cons_of_neg hx,
          List.dropWhile_cons_of_neg hx, List.cons_append]

lemma dropWhile_append_of_all (p : Char → Bool) (a b : List Char)
    (h : ∀ c ∈ a, p c = true) :
    (a ++ b).dropWhile p = b.dropWhile p := by
  induction a with
  | nil => simp
  | cons x a ih =>
      have hx : p x = true := h x (List.mem_cons_self x a)
      rw [List.cons_append, List.dropWhile_cons_of_pos hx]
      exact ih (fun c hc => h c (List.mem_cons_of_mem x hc))

lemma mem_of_mem_dropWhile (p : Char → Bool) (a : List Char) (c : Char)
    (h : c ∈ a.dropWhile p) : c ∈ a := by
  induction a with
  | nil => cases h
  | cons x a ih =>
      by_cases hx : p x
      · rw [List.dropWhile_cons_of_pos hx] at h
        exact List.mem_cons_of_mem x (ih h)
      · rwa [List.dropWhile_cons_of_neg hx] at h

lemma dropWhile_head_false (p : Char → Bool) (a : List Char) (c : Char) (r : List Char)
    (h : a.dropWhile p = c :: r) : p c = false := by
  induction a with
  | nil => cases h
  | cons x a ih =>
      by_cases hx : p x
      · rw [List.dropWhile_cons_of_pos hx] at h
        exact ih h
      · rw [List.dropWhile_cons_of_neg hx] at h
        cases h
        cases hpx : p c
        · rfl
        · exact absurd hpx hx

lemma stripLeft_head (a : List Char) (h : ∃ c ∈ a, isPyWs c = false) :
    ∃ h0 r, stripLeft a = h0 :: r ∧ isPyWs h0 = false ∧ h0 ∈ a := by
  cases hs : stripLeft a with
  | nil =>
      exfalso
      obtain ⟨c, hc, hpc⟩ := h
      have := List.dropWhile_eq_nil_iff.mp hs c hc
      rw [hpc] at this
      cases this
  | cons h0 r =>
      exact ⟨h0, r, rfl, dropWhile_head_false _ _ _ _ hs,
        mem_of_mem_dropWhile _ _ _ (hs ▸ List.mem_cons_self h0 r)⟩

lemma mem_of_mem_stripLeft (a : List Char) (c : Char) (h : c ∈ stripLeft a) : c ∈ a :=
  mem_of_mem_dropWhile _ _ _ h

lemma mem_of_mem_stripRight (a : List Char) (c : Char) (h : c ∈ stripRight a) : c ∈ a := by
  unfold stripRight at h
  rw [List.mem_reverse] at h
  have := mem_of_mem_dropWhile _ _ _ h
  rwa [List.mem_reverse] at this

lemma stripLeft_append_of_ex (a b : List Char) (h : ∃ c ∈ a, isPyWs c = false) :
    stripLeft (a ++ b) = stripLeft a ++ b :=
  dropWhile_append_of_ex _ a b h

lemma stripRight_append_of_getLast (a b : List Char) (c : Char)
    (hl : a.getLast? = some c) (hc : isPyWs c = false) :
    stripRight (a ++ b) = a ++ stripRight b := by
  unfold stripRight
  rw [List.reverse_append]
  by_cases hb : ∃ x ∈ b, isPyWs x = false
  · have hb2 : ∃ x ∈ b.reverse, isPyWs x = false := by
      obtain ⟨x, hx, hpx⟩ := hb
      exact ⟨x, List.mem_reverse.mpr hx, hpx⟩
    rw [dropWhile_append_of_ex _ _ _ hb2]
    simp
  · push_neg at hb
    have hball : ∀ x ∈ b.reverse, isPyWs x = true := by
      intro x hx
      have h2 := hb x (List.mem_reverse.mp hx)
      cases hpx : isPyWs x
      · exact absurd hpx h2
      · rfl
    rw [dropWhile_append_of_all _ _ _ hball,
      List.dropWhile_eq_nil_iff.mpr (fun x hx => hball x hx)]
    have ha : a.reverse.dropWhile isPyWs = a.reverse := by
      cases har : a.reverse with
      | nil => rfl
      | cons x r =>
          have hx : x = c := by
            have h3 : a.getLast? = some x := by
              rw [List.getLast?_eq_head?_reverse, har]
              rfl
            rw [hl] at h3
            exact (Option.some.inj h3).symm
          rw [hx]
          exact List.dropWhile_cons_of_neg (by rw [hc]; exact Bool.false_ne_true)
    rw [ha]
    simp

lemma firstIdxOf_append (a b : List Char) (t : Char) (hna : t ∉ a) (x : List Char)
    (hb : b = t :: x) :
    firstIdxOf (a ++ b) t = some a.length := by
  induction a with
  | nil => simp [hb, firstIdxOf]
  | cons y a ih =>
      have hy : y ≠ t := fun h => hna (h ▸ List.mem_cons_self y a)
      have hna2 : t ∉ a := fun h => hna (List.mem_cons_of_mem y h)
      have hstep : firstIdxOf ((y :: a) ++ b) t =
          (if y = t then some 0
           else match firstIdxOf (a ++ b) t with
                | some i => some (i + 1)
                | none => none) := rfl
      rw [hstep, if_neg hy, ih hna2]
      simp

lemma firstIdxOf_eq_none (a : List Char) (t : Char) (hna : t ∉ a) :
    firstIdxOf a t = none := by
  induction a with
  | nil => rfl
  | cons y a ih =>
      have hy : y ≠ t := fun h => hna (h ▸ List.mem_cons_self y a)
      have hna2 : t ∉ a := fun h => hna (List.mem_cons_of_mem y h)
      have hstep : firstIdxOf (y :: a) t =
          (if y = t then some 0
           else match firstIdxOf a t with
                | some i => some (i + 1)
                | none => none) := rfl
      rw [hstep, if_neg hy, ih hna2]

lemma closeScanAux_append (a b : List Char) (d : Int) (k m : Nat)
    (h : closeScanAux a d k = some m) : closeScanAux (a ++ b) d k = some m := by
  induction a generalizing d k with
  | nil => cases h
  | cons c rest ih =>
      rw [List.cons_append]
      unfold closeScanAux at h ⊢
      split at h
      · next hcond => rw [if_pos hcond]; exact h
      · next hcond =>
          rw [if_neg hcond]
          split at h
          · cases h
          · next hk => rw [if_neg hk]; exact ih _ _ h

lemma parseNumTok_num (s : List Char) (v : Json) (r : List Char)
    (h : parseNumTok s = some (v, r)) : ∃ n, v = Json.num n := by
  unfold parseNumTok at h
  split at h
  · split at h
    · cases h
    · exact ⟨_, ((Prod.mk.injEq _ _ _ _).mp (Option.some.inj h)).1.symm⟩
  · split at h
    · cases h
    · exact ⟨_, ((Prod.mk.injEq _ _ _ _).mp (Option.some.inj h)).1.symm⟩

lemma parseValAfterWs_obj_head (f : Nat) (l : List Char) (o : List (String × Json))
    (r : List Char) (h : parseValAfterWs f l = some (Json.obj o, r)) :
    ∃ r2, l = obraceC :: r2 := by
  cases l with
  | nil => cases f <;> cases h
  | cons c rest =>
      cases f with
      | zero => cases h
      | succ f =>
          unfold parseValAfterWs at h
          refine ⟨rest, ?_⟩
          by_cases hc : c = obraceC
          · rw [hc]
          · exfalso
            rw [if_neg hc] at h
            by_cases h2 : c = '['
            · rw [if_pos h2] at h
              split at h <;> simp_all
            · rw [if_neg h2] at h
              by_cases h3 : c = '"'
              · rw [if_pos h3] at h
                split at h <;> simp_all
              · rw [if_neg h3] at h
                by_cases h4 : c = 't'
                · rw [if_pos h4] at h
                  split at h <;> simp_all
                · rw [if_neg h4] at h
                  by_cases h5 : c = 'f'
                  · rw [if_pos h5] at h
                    split at h <;> simp_all
                  · rw [if_neg h5] at h
                    by_cases h6 : c = 'n'
                    · rw [if_pos h6] at h
                      split at h <;> simp_all
                    · rw [if_neg h6] at h
                      by_cases h7 : (c = '-' || isAsciiDigit c) = true
                      · rw [if_pos h7] at h
                        obtain ⟨n, hn⟩ := parseNumTok_num _ _ _ h
                        cases hn
                      · rw [if_neg h7] at h
                        cases h

lemma parseVal_obj_head (f : Nat) (s : List Char) (o : List (String × Json)) (r : List Char)
    (h : parseVal f s = some (Json.obj o, r)) :
    ∃ r2, skipWs s = obraceC :: r2 := by
  cases f with
  | zero => cases h
  | succ f => exact parseValAfterWs_obj_head f (skipWs s) o r h

lemma jparseL_obj_head (t : List Char) (o : List (String × Json))
    (h : jparseL t = some (Json.obj o)) :
    ∃ r2, skipWs t = obraceC :: r2 := by
  unfold jparseL at h
  cases hp : parseVal (4 * t.length + 8) t with
  | none => rw [hp] at h; cases h
  | some vr =>
      rw [hp] at h
      obtain ⟨v, r⟩ := vr
      have h2 : (if skipWs r = [] then some v else none) = some (Json.obj o) := h
      split at h2
      · exact parseVal_obj_head _ _ _ _ ((Option.some.inj h2) ▸ hp)
      · cases h2

lemma jparseIsObjL_false_of_head (t : List Char) (c : Char) (r : List Char)
    (hsw : skipWs t = c :: r) (hc : c ≠ obraceC) :
    jparseIsObjL t = false := by
  unfold jparseIsObjL
  cases hj : jparseL t with
  | none => rfl
  | some v =>
      cases v with
      | obj o =>
          obtain ⟨r2, hr2⟩ := jparseL_obj_head t o hj
          rw [hsw] at hr2
          exact absurd (List.cons.inj hr2).1 hc
      | null => rfl
      | bool b => rfl
      | num n => rfl
      | str s => rfl
      | arr l => rfl

lemma jparseL_of_skipWs_nil (t : List Char) (h : skipWs t = []) : jparseL t = none := by
  have hstep : parseVal (4 * t.length + 8) t =
      parseValAfterWs (4 * t.length + 7) (skipWs t) := rfl
  unfold jparseL
  rw [hstep, h]
  rfl

lemma isJsonWs_false_of_isPyWs (c : Char) (h : isPyWs c = false) : isJsonWs c = false := by
  unfold isPyWs at h
  unfold isJsonWs
  simp only [Bool.or_eq_false_iff] at h ⊢
  exact ⟨⟨⟨h.1.1.1.1.1, h.1.1.1.1.2⟩, h.1.1.1.2⟩, h.1.1.2⟩

lemma extractCore_roundtrip (sp J Jt sr r0 : List Char) (o : List (String × Json))
    (h0 : Char)
    (hsp2 : sp = h0 :: r0) (hh0ws : isPyWs h0 = false) (hh0ob : h0 ≠ obraceC)
    (hspob : obraceC ∉ sp)
    (hJ : jparseL J = some (Json.obj o))
    (hJcons : J = obraceC :: Jt)
    (hscan : closeScan J = some (J.length - 1)) :
    extractCore (sp ++ (J ++ sr)) = some (Json.obj o) := by
  have hne : (sp ++ (J ++ sr)).isEmpty = false := by
    rw [hsp2]; rfl
  have hsw : skipWs (sp ++ (J ++ sr)) = h0 :: (r0 ++ (J ++ sr)) := by
    rw [hsp2, List.cons_append]
    exact List.dropWhile_cons_of_neg
      (by rw [isJsonWs_false_of_isPyWs h0 hh0ws]; exact Bool.false_ne_true)
  have hnotobj : jparseIsObjL (sp ++ (J ++ sr)) = false :=
    jparseIsObjL_false_of_head _ _ _ hsw hh0ob
  have hfi : firstIdxOf (sp ++ (J ++ sr)) obraceC = some sp.length :=
    firstIdxOf_append sp (J ++ sr) obraceC hspob (Jt ++ sr) (by rw [hJcons]; rfl)
  have hdrop : (sp ++ (J ++ sr)).drop sp.length = J ++ sr := List.drop_left sp (J ++ sr)
  have hJlen : 1 ≤ J.length := by rw [hJcons]; simp
  have hscan2 : closeScan (J ++ sr) = some (J.length - 1) :=
    closeScanAux_append J sr 0 0 _ hscan
  have htake : (J ++ sr).take (J.length - 1 + 1) = J := by
    have heq : J.length - 1 + 1 = J.length := by omega
    rw [heq]
    exact List.take_left J sr
  unfold extractCore
  rw [if_neg (by rw [hne]; exact Bool.false_ne_true)]
  cases hjt : jparseL (sp ++ (J ++ sr)) with
  | some v =>
      cases v with
      | obj l => rw [jparseIsObjL] at hnotobj; rw [hjt] at hnotobj; cases hnotobj
      | null => simp [hfi, hdrop, hscan2, htake, hJ]
      | bool b => simp [hfi, hdrop, hscan2, htake, hJ]
      | num n => simp [hfi, hdrop, hscan2, htake, hJ]
      | str s2 => simp [hfi, hdrop, hscan2, htake, hJ]
      | arr l => simp [hfi, hdrop, hscan2, htake, hJ]
  | none => simp [hfi, hdrop, hscan2, htake, hJ]

lemma getLast_append_right (a b : List Char) (c : Char)
    (h : b.getLast? = some c) : (a ++ b).getLast? = some c := by
  have hb : b ≠ [] := by
    intro hnil
    rw [hnil] at h
    cases h
  rw [List.getLast?_append_of_ne_nil a hb]
  exact h

lemma extract_scan_none (t2 : List Char) (i : Nat)
    (hcs : closeScan (t2.drop i) = none) :
    (match closeScan (t2.drop i) with
     | none => none
     | some m => match jparseL ((t2.drop i).take (m + 1)) with
       | some (Json.obj l) => some (Json.obj l)
       | _ => (none : Option Json)) = none := by
  rw [hcs]

lemma extract_cand_fail (t2 : List Char) (i m : Nat)
    (hcs : closeScan (t2.drop i) = some m)
    (hcand : ∀ o, jparseL ((t2.drop i).take (m + 1)) ≠ some (Json.obj o)) :
    (match closeScan (t2.drop i) with
     | none => none
     | some m2 => match jparseL ((t2.drop i).take (m2 + 1)) with
       | some (Json.obj l) => some (Json.obj l)
       | _ => (none : Option Json)) = none := by
  rw [hcs]
  show (match jparseL ((t2.drop i).take (m + 1)) with
       | some (Json.obj l) => some (Json.obj l)
       | _ => (none : Option Json)) = none
  cases hc : jparseL ((t2.drop i).take (m + 1)) with
  | none => rfl
  | some v =>
      cases v with
      | obj l => exact absurd hc (hcand l)
      | null => rfl
      | bool b => rfl
      | num n => rfl
      | str s2 => rfl
      | arr l => rfl

/-- C5: the plan extractor round-trips a well-formed JSON object embedded in
surrounding text under the amended side conditions (non-blank prefix free of
opening braces, serialization starting with the opening and ending with the
closing brace, brace scan closing at its last character), and returns none
when no opening brace occurs, when the brace scan fails to close, or when the
scanned candidate does not parse as a JSON object. -/
theorem claim5_extract :
    (∀ (p J s : String) (o : List (String × Json)) (Jt : List Char),
        (∃ c ∈ p.data, isPyWs c = false) →
        obraceC ∉ p.data →
        J.data = obraceC :: Jt →
        J.data.getLast? = some cbraceC →
        closeScan J.data = some (J.data.length - 1) →
        jparseL J.data = some (Json.obj o) →
        extractToolPlan (p ++ J ++ s) = some (Json.obj o))
    ∧ (∀ t : String, obraceC ∉ t.data → extractToolPlan t = none)
    ∧ (∀ (t : String) (i : Nat),
        jparseIsObjL (pyStrip t).data = false →
        firstIdxOf (pyStrip t).data obraceC = some i →
        closeScan ((pyStrip t).data.drop i) = none →
        extractToolPlan t = none)
    ∧ (∀ (t : String) (i m : Nat),
        jparseIsObjL (pyStrip t).data = false →
        firstIdxOf (pyStrip t).data obraceC = some i →
        closeScan ((pyStrip t).data.drop i) = some m →
        (∀ o, jparseL (((pyStrip t).data.drop i).take (m + 1)) ≠ some (Json.obj o)) →
        extractToolPlan t = none) := by
  refine ⟨?_, ?_, ?_, ?_⟩
  · intro p J s o Jt hpex hpob hJcons hJlast hscan hJ
    obtain ⟨h0, r0, hsp2, hh0ws, hh0mem⟩ := stripLeft_head p.data hpex
    have hh0ob : h0 ≠ obraceC := fun he => hpob (he ▸ hh0mem)
    have hspob : obraceC ∉ stripLeft p.data := fun hm => hpob (mem_of_mem_stripLeft _ _ hm)
    have hdata : (p ++ J ++ s).data = p.data ++ (J.data ++ s.data) := by
      rw [String.data_append, String.data_append, List.append_assoc]
    have hstrip : (pyStrip (p ++ J ++ s)).data
        = stripLeft p.data ++ (J.data ++ stripRight s.data) := by
      show stripRight (stripLeft (p ++ J ++ s).data)
          = stripLeft p.data ++ (J.data ++ stripRight s.data)
      rw [hdata, stripLeft_append_of_ex _ _ hpex, ← List.append_assoc,
        stripRight_append_of_getLast _ _ cbraceC
          (getLast_append_right _ _ _ hJlast) (by rfl),
        List.append_assoc]
    show extractCore (pyStrip (p ++ J ++ s)).data = some (Json.obj o)
    rw [hstrip]
    exact extractCore_roundtrip _ _ Jt _ r0 o h0 hsp2 hh0ws hh0ob hspob hJ hJcons hscan
  · intro t hob
    have hob2 : obraceC ∉ (pyStrip t).data := by
      intro hm
      exact hob (mem_of_mem_stripLeft _ _ (mem_of_mem_stripRight _ _ hm))
    show extractCore (pyStrip t).data = none
    unfold extractCore
    by_cases he : (pyStrip t).data.isEmpty
    · rw [if_pos he]
    · rw [if_neg he]
      cases hsw : skipWs (pyStrip t).data with
      | nil =>
          rw [jparseL_of_skipWs_nil _ hsw, firstIdxOf_eq_none _ _ hob2]
      | cons c r =>
          have hcmem : c ∈ (pyStrip t).data :=
            mem_of_mem_dropWhile _ _ _ (hsw ▸ List.mem_cons_self c r)
          have hcob : c ≠ obraceC := fun he2 => hob2 (he2 ▸ hcmem)
          have hnobj := jparseIsObjL_false_of_head _ _ _ hsw hcob
          cases hjt : jparseL (pyStrip t).data with
          | none => rw [firstIdxOf_eq_none _ _ hob2]
          | some v =>
              cases v with
              | obj l =>
                  exfalso
                  unfold jparseIsObjL at hnobj
                  rw [hjt] at hnobj
                  cases hnobj
              | null => rw [firstIdxOf_eq_none _ _ hob2]
              | bool b => rw [firstIdxOf_eq_none _ _ hob2]
              | num n => rw [firstIdxOf_eq_none _ _ hob2]
              | str s2 => rw [firstIdxOf_eq_none _ _ hob2]
              | arr l => rw [firstIdxOf_eq_none _ _ hob2]
  · intro t i hnobj hfi hcs
    show extractCore (pyStrip t).data = none
    unfold extractCore
    by_cases he : (pyStrip t).data.isEmpty
    · rw [if_pos he]
    · rw [if_neg he]
      cases hjt : jparseL (pyStrip t).data with
      | none => rw [hfi]; exact extract_scan_none _ _ hcs
      | some v =>
          cases v with
          | obj l =>
              exfalso
              unfold jparseIsObjL at hnobj
              rw [hjt] at hnobj
              cases hnobj
          | null => rw [hfi]; exact extract_scan_none _ _ hcs
          | bool b => rw [hfi]; exact extract_scan_none _ _ hcs
          | num n => rw [hfi]; exact extract_scan_none _ _ hcs
          | str s2 => rw [hfi]; exact extract_scan_none _ _ hcs
          | arr l => rw [hfi]; exact extract_scan_none _ _ hcs
  · intro t i m hnobj hfi hcs hcand
    show extractCore (pyStrip t).data = none
    unfold extractCore
    by_cases he : (pyStrip t).data.isEmpty
    · rw [if_pos he]
    · rw [if_neg he]
      cases hjt : jparseL (pyStrip t).data with
      | none => rw [hfi]; exact extract_cand_fail _ _ _ hcs hcand
      | some v =>
          cases v with
          | obj l =>
              exfalso
              unfold jparseIsObjL at hnobj
              rw [hjt] at hnobj
              cases hnobj
          | null => rw [hfi]; exact extract_cand_fail _ _ _ hcs hcand
          | bool b => rw [hfi]; exact extract_cand_fail _ _ _ hcs hcand
          | num n => rw [hfi]; exact extract_cand_fail _ _ _ hcs hcand
          | str s2 => rw [hfi]; exact extract_cand_fail _ _ _ hcs hcand
          | arr l => rw [hfi]; exact extract_cand_fail _ _ _ hcs hcand

/-- C5 counterexample: a prefix with balanced braces captures the scan, so the
extractor returns the parse of the prefix object rather than the embedded
serialization, refuting the unconditional round-trip. -/
theorem claim5_counterexample :
    extractToolPlan ("\x7b\x7d" ++ "\x7b\x22a\x22: 1\x7d" ++ "") = some (Json.obj [])
    ∧ Json.obj [] ≠ Json.obj [("a", Json.num 1)] :=
  ⟨rfl, by simp⟩

/-- C5 witness: each conjunct of the extractor theorem applied at a concrete
input. -/
theorem claim5_witness :
    extractToolPlan ("plan: " ++ "\x7b\x22a\x22: 1\x7d" ++ " end") =
      some (Json.obj [("a", Json.num 1)])
    ∧ extractToolPlan ("no braces here") = none
    ∧ extractToolPlan ("\x7bx") = none
    ∧ extractToolPlan ("a \x7bb\x7d c") = none := by
  refine ⟨?_, ?_, ?_, ?_⟩
  · exact claim5_extract.1 "plan: " "\x7b\x22a\x22: 1\x7d" " end"
      [("a", Json.num 1)] ("\x22a\x22: 1\x7d".data)
      (by refine ⟨'p', ?_, rfl⟩; decide) (by decide) rfl rfl rfl rfl
  · exact claim5_extract.2.1 "no braces here" (by decide)
  · exact claim5_extract.2.2.1 "\x7bx" 0 rfl rfl rfl
  · exact claim5_extract.2.2.2 "a \x7bb\x7d c" 2 2 rfl rfl rfl
      (fun o h => Option.noConfusion ((rfl :
        jparseL ((("a \x7bb\x7d c".data).drop 2).take 3) = none).symm.trans h))

end Assigny
